import Mathlib

/-!
A verification development for the PartCatalog editor
(`parts_catalog_tool.py`): a shallow embedding of its structured-document
round-trip model (`parse_markdown` / `build_markdown`), its dirty/autosave
state machine, and the git synchronization pipeline driven by
`save_from_form`, together with theorems settling the specification claims.

Python strings are modelled as Lean `String` (a list of characters), and the
Python `str` operations used by the program (`strip`, `lower`, `split`,
`splitlines`, `startswith`, membership) are given executable embeddings over
`List Char`.  The embeddings are faithful for text whose characters are
ASCII and contain none of the line-break characters other than `'\n'`
(Python's `splitlines` also splits on `'\r'`, `'\x0b'`, `'\x0c'`,
`'\x1c'`–`'\x1e'`, `'\x85'`, and the Unicode separators, and `str.strip`
also removes Unicode spaces); the well-formedness hypotheses of the
round-trip theorems restrict attention to such "tame" text.
-/

namespace PartsCatalog

/-- Python whitespace characters (the ASCII ones stripped by `str.strip`). -/
def pyWs (c : Char) : Bool :=
  c = ' ' || c = '\t' || c = '\n' || c = '\x0d' || c = '\x0b' || c = '\x0c'

/-- A character is "tame" when the ASCII-level embeddings of the Python
string operations are exact for it: ASCII, and not one of the line-break
characters other than `'\n'`. -/
def tameChar (c : Char) : Bool :=
  c.toNat < 128 && c ≠ '\x0d' && c ≠ '\x0b' && c ≠ '\x0c' &&
    c ≠ '\x1c' && c ≠ '\x1d' && c ≠ '\x1e'

/-- Python `str.lstrip()` on a character list. -/
def lstripL (l : List Char) : List Char := l.dropWhile pyWs

/-- Python `str.rstrip()` on a character list. -/
def rstripL (l : List Char) : List Char := (l.reverse.dropWhile pyWs).reverse

/-- Python `str.strip()` on a character list. -/
def stripL (l : List Char) : List Char := rstripL (lstripL l)

/-- Python `str.lower()` on a character list (ASCII case mapping). -/
def lowerL (l : List Char) : List Char := l.map Char.toLower

/-- Python `a.startswith(b)` as a prefix test on character lists
(`isPrefixL pre l` is true when `pre` is a prefix of `l`). -/
def isPrefixL : List Char → List Char → Bool
  | [], _ => true
  | _ :: _, [] => false
  | a :: as, b :: bs => a = b && isPrefixL as bs

/-- Python `sub in s` as an infix test on character lists. -/
def isInfixL (needle : List Char) : List Char → Bool
  | [] => isPrefixL needle []
  | c :: rest => isPrefixL needle (c :: rest) || isInfixL needle rest

/-- Python `s.split(sep)` for a single-character separator. -/
def splitChar (sep : Char) : List Char → List (List Char)
  | [] => [[]]
  | c :: rest =>
    if c = sep then [] :: splitChar sep rest
    else
      match splitChar sep rest with
      | [] => [[c]]
      | h :: t => (c :: h) :: t

/-- Python `sep.join(pieces)` for a list-of-characters separator. -/
def joinSepL (sep : List Char) : List (List Char) → List Char
  | [] => []
  | [x] => x
  | x :: y :: xs => x ++ sep ++ joinSepL sep (y :: xs)

/-- Python `s.strip(c)` for a single-character strip set. -/
def stripAllL (c : Char) (l : List Char) : List Char :=
  ((l.dropWhile (· = c)).reverse.dropWhile (· = c)).reverse

/-- Python `str.strip()` on a `String`. -/
def pyStrip (s : String) : String := String.mk (stripL s.data)

/-- Python `str.rstrip()` on a `String`. -/
def pyRstrip (s : String) : String := String.mk (rstripL s.data)

/-- Python `str.lower()` on a `String`. -/
def pyLower (s : String) : String := String.mk (lowerL s.data)

/-- Python `text.splitlines()` for text whose only line break is `'\n'`:
split on `'\n'` and drop the final empty piece produced by a trailing
newline. -/
def pySplitlines (s : String) : List String :=
  let parts := splitChar '\n' s.data
  let parts := if parts.getLast? = some [] then parts.dropLast else parts
  parts.map String.mk

/-- A string is tame: every character is tame (see `tameChar`). -/
def tameS (s : String) : Prop := ∀ c ∈ s.data, tameChar c

/-- A string is single-line and tame: tame and without `'\n'`. -/
def lineS (s : String) : Prop := tameS s ∧ '\n' ∉ s.data

/-! ## DocumentModel: constants of `parts_catalog_tool.py` -/

/-- `FIELD_ORDER`: the fixed Introduction fields and their template defaults. -/
def FIELD_ORDER : List (String × String) :=
  [ ("Title", "Click or tap here to enter text."),
    ("Part Number", "PN-XXX"),
    ("Notes", "General notes / interfaces / context"),
    ("Type of Design", "Specialized / Fundamental"),
    ("Level of Novelty", "Inventive / Common"),
    ("Performance Feedback", "Exists / Does Not Exist"),
    ("Verified Performance", "Yes / No") ]

/-- `REV_HEADERS`. -/
def REV_HEADERS : List String := ["Rev", "Date", "Description", "By"]

/-- `PARTLIST_HEADERS`. -/
def PARTLIST_HEADERS : List String := ["Ref Des", "Type", "Value/Description"]

/-- `SECTION_TITLES["cd"]`. -/
def SECTION_CD : String := "Circuit Description"

/-- `SECTION_TITLES["ct"]`. -/
def SECTION_CT : String := "Circuit Theory"

/-- `SECTION_TITLES["da"]`. -/
def SECTION_DA : String := "Design Analysis"

/-- `DIVIDER_CELL_RE = re.compile(r'^:?-{2,}:?$')`: full match of one
table cell against the divider pattern. -/
def dividerCellL (l : List Char) : Bool :=
  let l1 := if l.head? = some ':' then l.tail else l
  let l2 := if l1.getLast? = some ':' then l1.dropLast else l1
  decide (2 ≤ l2.length) && l2.all (· = '-')

/-- `MD_ROW_RE = r'^\|\s*(?P<field>[^|]+?)\s*\|\s*(?P<value>[^|]*?)\s*\|$'`
applied with `.match` to an already-stripped line: the line must consist of
exactly `|`, a non-empty bar-free field cell, `|`, a bar-free value cell,
`|`; the two groups are returned stripped (the caller strips them again,
which is idempotent, so stripping here loses nothing). -/
def MD_ROW_match (s : String) : Option (String × String) :=
  match splitChar '|' s.data with
  | [p0, p1, p2, p3] =>
    if p0 = [] && p3 = [] && p1 ≠ [] then
      some (String.mk (stripL p1), String.mk (stripL p2))
    else none
  | _ => none

/-- `_is_md_divider_line`. -/
def is_md_divider_line (line : String) : Bool :=
  let s := stripL line.data
  isPrefixL ['|'] s && (isPrefixL ['|'] s.reverse) &&
    (splitChar '|' (stripAllL '|' s)).all (fun c => dividerCellL (stripL c))

/-- `_is_divider_cells`. -/
def is_divider_cells (cells : List String) : Bool :=
  !cells.isEmpty && cells.all (fun c => dividerCellL (stripL c.data))

/-- `_divider_for(headers)`. -/
def divider_for (headers : List String) : String :=
  String.mk (("| ").data ++
    joinSepL ((" | ").data) (headers.map (fun h => List.replicate h.data.length '-')) ++
    (" |").data)

/-- The markdown table header line `"| " + " | ".join(headers) + " |"`. -/
def tableHeaderLine (headers : List String) : String :=
  String.mk (("| ").data ++ joinSepL ((" | ").data) (headers.map String.data) ++ (" |").data)

/-- The empty-Partlist skeleton
`f"| {' | '.join(PARTLIST_HEADERS)} |\n{_divider_for(PARTLIST_HEADERS)}"`. -/
def partlistSkeleton : String :=
  String.mk ((tableHeaderLine PARTLIST_HEADERS).data ++ '\n' :: (divider_for PARTLIST_HEADERS).data)

/-! ## DocumentModel: the in-memory record and dictionary helpers -/

/-- The tuple returned by `parse_markdown` / consumed by `build_markdown`
(`fields, rev_rows, variant_items, netlist, partlist_text, cd, ct, da`). -/
structure CircuitDoc where
  fields : List (String × String)
  revRows : List (List String)
  variantItems : List String
  netlist : String
  partlistText : String
  circuitDescription : String
  circuitTheory : String
  designAnalysis : String
deriving DecidableEq

/-- `fields = {k: "" for k, _ in FIELD_ORDER}`. -/
def initFields : List (String × String) := FIELD_ORDER.map (fun kv => (kv.fst, ""))

/-- Python `field in fields` (key membership in the ordered dict). -/
def dictMem (d : List (String × String)) (k : String) : Bool := d.any (fun kv => kv.fst = k)

/-- Python `fields[field] = value` on a dict with distinct keys. -/
def dictSet (d : List (String × String)) (k v : String) : List (String × String) :=
  d.map (fun kv => if kv.fst = k then (kv.fst, v) else kv)

/-- Python `fields.get(key, '')`. -/
def dictGetD (d : List (String × String)) (k : String) : String :=
  match d.find? (fun kv => kv.fst = k) with
  | some kv => kv.snd
  | none => ""

/-! ## DocumentModel: `parse_markdown` -/

/-- `_find_section(lines, title)`, returning the suffix of the line list
after the matched header instead of its index (the source only ever uses
the index to continue scanning after the header). -/
def find_section : List String → String → Option (List String)
  | [], _ => none
  | ln :: rest, title =>
    if lowerL (stripL ln.data) = lowerL (("## ").data ++ title.data) then some rest
    else find_section rest title

/-- `_read_section_text(lines, start_idx)` applied to the suffix after the
header: every line up to the next `"## "` header, with leading and trailing
blank lines trimmed, joined with newlines. -/
def read_section_text (tail : List String) : String :=
  let body := tail.takeWhile (fun ln => !isPrefixL (("## ").data) ln.data)
  let body := body.dropWhile (fun ln => stripL ln.data = [])
  let body := (body.reverse.dropWhile (fun ln => stripL ln.data = [])).reverse
  String.mk (joinSepL ['\n'] (body.map String.data))

/-- One markdown table body row:
`[c.strip() for c in line.strip().strip("|").split("|")]`. -/
def parseCells (ln : String) : List String :=
  (splitChar '|' (stripAllL '|' (stripL ln.data))).map (fun c => String.mk (stripL c))

/-- The Revision-History body loop of `parse_markdown`: consume `|` lines,
skipping divider rows (the source first skips leading dividers in a
dedicated loop and then skips interior dividers inside the body loop; both
loops perform the same test, so one loop suffices). -/
def revConsume : List String → List (List String)
  | [] => []
  | ln :: rest =>
    if isPrefixL ['|'] (stripL ln.data) then
      if is_md_divider_line ln then revConsume rest
      else parseCells ln :: revConsume rest
    else []

/-- The Revision-History header search of `parse_markdown` (given the lines
after the section header): skip lines until a `|` line (the table header,
itself consumed) and abort on a `"## "` line. -/
def revFindTable : List String → List (List String)
  | [] => []
  | ln :: rest =>
    if isPrefixL ['|'] (stripL ln.data) then revConsume rest
    else if isPrefixL (("## ").data) (stripL ln.data) then []
    else revFindTable rest

/-- The bullet-collecting loop of `_parse_bulleted_list`. -/
def collectBullets : List String → List String
  | [] => []
  | ln :: rest =>
    if isPrefixL (("## ").data) ln.data then []
    else
      let s := stripL ln.data
      if isPrefixL (("- ").data) s then String.mk (stripL (s.drop 2)) :: collectBullets rest
      else if isPrefixL (("* ").data) s then String.mk (stripL (s.drop 2)) :: collectBullets rest
      else collectBullets rest

/-- `_parse_bulleted_list(lines, start_idx)` applied to the suffix after
the header: collect bullet items, then drop the ones whose lowercase form
is the literal placeholder `"(none)"`. -/
def parse_bulleted_list (tail : List String) : List String :=
  (collectBullets tail).filter (fun it => lowerL it.data ≠ ("(none)").data)

/-- The Introduction-table row loop of `parse_markdown` (the body of
`while i < n and lines[i].strip().startswith("|")`). -/
def introRows : List String → List (String × String) → List (String × String)
  | [], f => f
  | ln :: rest, f =>
    if isPrefixL ['|'] (stripL ln.data) then
      introRows rest
        (match MD_ROW_match (pyStrip ln) with
         | some fv => if dictMem f fv.fst then dictSet f fv.fst fv.snd else f
         | none => f)
    else f

/-- The Introduction-table scan of `parse_markdown`: find the first line
whose stripped lowercase form starts with `"| field"` and whose lowercase
form contains `"| value"`, skip it and the following line (`i += 2`), and
consume the table rows; the scan `break`s afterwards. -/
def introScanLoop : List String → List (String × String) → List (String × String)
  | [], f => f
  | ln :: rest, f =>
    if isPrefixL (("| field").data) (lowerL (stripL ln.data)) &&
        isInfixL (("| value").data) (lowerL ln.data) then
      introRows (rest.drop 1) f
    else introScanLoop rest f

/-- `parse_markdown(text)`.  (`[ln.rstrip("\n") for ln in text.splitlines()]`
is a no-op after `splitlines`, so the line list is just `pySplitlines`.) -/
def parse_markdown (text : String) : CircuitDoc :=
  let lines := pySplitlines text
  let fields := introScanLoop lines initFields
  let revRows :=
    match find_section lines ("Revision History") with
    | some tail => revFindTable tail
    | none => []
  let variantItems :=
    match find_section lines ("Variant Details") with
    | some tail => parse_bulleted_list tail
    | none => []
  let netlist :=
    match find_section lines ("Netlist") with
    | some tail => read_section_text tail
    | none => ""
  let partlistText :=
    match find_section lines ("Partlist") with
    | some tail =>
      let tmp := read_section_text tail
      if stripL tmp.data = [] then partlistSkeleton else tmp
    | none => ""
  let cd :=
    match find_section lines SECTION_CD with
    | some tail => read_section_text tail
    | none => ""
  let ct :=
    match find_section lines SECTION_CT with
    | some tail => read_section_text tail
    | none => ""
  let da :=
    match find_section lines SECTION_DA with
    | some tail => read_section_text tail
    | none => ""
  ⟨fields, revRows, variantItems, netlist, partlistText, cd, ct, da⟩

/-! ## DocumentModel: `build_markdown` -/

/-- Python `f"{key:<22}"`: left-justify to width 22 with spaces. -/
def pyLjust (s : String) (w : Nat) : String :=
  String.mk (s.data ++ List.replicate (w - s.data.length) ' ')

/-- The `intro_lines` list of `build_markdown`. -/
def build_intro_lines (fields : List (String × String)) : List String :=
  [ ("| Field                  | Value                     |"),
    ("| ---------------------- | ------------------------- |") ] ++
  FIELD_ORDER.map (fun kv =>
    String.mk (("| ").data ++ (pyLjust kv.fst 22).data ++ (" | ").data ++
      stripL (dictGetD fields kv.fst).data ++ (" |").data))

/-- `(r + [""] * len(headers))[:len(headers)]`. -/
def padRow (n : Nat) (r : List String) : List String := (r ++ List.replicate n "").take n

/-- `build_table(headers, rows)` of `build_markdown`: header row, divider,
then each non-divider row padded/truncated to the header width. -/
def build_table (headers : List String) (rows : List (List String)) : String :=
  String.mk (joinSepL ['\n']
    ((tableHeaderLine headers).data :: (divider_for headers).data ::
      rows.filterMap (fun r =>
        if is_divider_cells (r.map pyStrip) then none
        else some (("| ").data ++ joinSepL ((" | ").data)
          ((padRow headers.length r).map String.data) ++ (" |").data))))

/-- `build_variant_list(items)` of `build_markdown`. -/
def build_variant_list (items : List String) : String :=
  let items2 := items.filterMap (fun it =>
    let s := pyStrip it
    if s.data = [] then none else some s)
  if items2 = [] then ("- (none)")
  else String.mk (joinSepL ['\n'] (items2.map (fun it => ("- ").data ++ it.data)))

/-- `block(h, body)` of `build_markdown`. -/
def build_block (h : String) (body : String) : List String :=
  let b := pyStrip body
  [String.mk (("## ").data ++ h.data), "",
   if b.data = [] then ("(Click or type to add content…)") else b]

/-- `build_markdown(fields, rev_rows, variant_items, netlist, partlist_text,
cd, ct, da)`.  The source stamps the output with `today_iso()`; the clock
reading is passed in as `today`. -/
def build_markdown (today : String) (doc : CircuitDoc) : String :=
  let ptxt := pyStrip doc.partlistText
  let ptxt := if ptxt.data = [] then partlistSkeleton else ptxt
  let out : List String :=
    [ ("# Circuit Metadata"), "",
      String.mk (("**Last Updated:** ").data ++ today.data), "",
      ("## Introduction"), "",
      String.mk (joinSepL ['\n'] ((build_intro_lines doc.fields).map String.data)), "",
      ("## Revision History"), "",
      build_table REV_HEADERS doc.revRows, "",
      ("## Variant Details"), "",
      build_variant_list doc.variantItems, "" ] ++
    build_block ("Netlist") doc.netlist ++ [""] ++
    [("## Partlist"), "", ptxt, ""] ++
    build_block SECTION_CD doc.circuitDescription ++ [""] ++
    build_block SECTION_CT doc.circuitTheory ++ [""] ++
    build_block SECTION_DA doc.designAnalysis ++ [""]
  String.mk (rstripL (joinSepL ['\n'] (out.map String.data)) ++ ['\n'])

/-! ## DirtyTracker (`_mark_dirty`, `_clear_dirty`, `load_file` /
`load_folder_meta` suppression) -/

/-- The dirty-tracking slice of the window state: `self.suppress_dirty`,
`self.dirty`, `self.autosave_remaining_s`. -/
structure DirtyState where
  suppress : Bool
  dirty : Bool
  autosaveRemaining : Nat
deriving DecidableEq

/-- `_mark_dirty` (the handler fired by every editable-field change):
a no-op while suppressed; otherwise the Clean-to-Dirty transition arms the
autosave countdown, and an edit while already Dirty changes nothing. -/
def mark_dirty (interval : Nat) (s : DirtyState) : DirtyState :=
  if s.suppress then s
  else if !s.dirty then { s with dirty := true, autosaveRemaining := interval }
  else s

/-- `_clear_dirty` (the indicator refresh has no model state). -/
def clear_dirty (s : DirtyState) : DirtyState := { s with dirty := false }

/-- `_reset_autosave_countdown` (the label text has no model state). -/
def reset_autosave_countdown (interval : Nat) (s : DirtyState) : DirtyState :=
  { s with autosaveRemaining := interval }

/-- The dirty-tracking effect of `load_file` / `load_folder_meta`: set
`suppress_dirty = True`, programmatically populate every editable field —
firing some number `edits` of edit events into `_mark_dirty` — then set
`suppress_dirty = False`, `_clear_dirty()`, `_reset_autosave_countdown()`. -/
def load_populate (interval edits : Nat) (s : DirtyState) : DirtyState :=
  let s1 := { s with suppress := true }
  let s2 := (mark_dirty interval)^[edits] s1
  let s3 := { s2 with suppress := false }
  reset_autosave_countdown interval (clear_dirty s3)

/-! ## Push countdown (`_schedule_git_push` and the git-push section of
`_tick_autosave_countdown`) -/

/-- The push-countdown slice of the window state: `git_enabled` from the
settings, `self._push_inflight`, `self.git_push_remaining_s`
(`none` = idle), and a counter of background pushes handed to the worker
(each `self._gitbg.submit(_bg_push)`). -/
structure PushState where
  gitEnabled : Bool
  inflight : Bool
  remaining : Option Nat
  pushCount : Nat
deriving DecidableEq

/-- `_schedule_git_push`: with git disabled the countdown is cleared and
never armed; otherwise it is (re)set to `max(1, auto_push_delay_seconds)`. -/
def schedule_git_push (delay : Nat) (s : PushState) : PushState :=
  if !s.gitEnabled then { s with remaining := none }
  else { s with remaining := some (max 1 delay) }

/-- The git-push-countdown section of `_tick_autosave_countdown` (one
scheduler tick): with git disabled the countdown is cleared; an idle
countdown stays idle; at zero, a push is dispatched to the background
worker unless one is already in flight, and the countdown is cleared
immediately either way; otherwise the countdown decrements. -/
def tick_push_countdown (s : PushState) : PushState :=
  if !s.gitEnabled then { s with remaining := none }
  else
    match s.remaining with
    | none => s
    | some r =>
      if r = 0 then
        if s.inflight then { s with remaining := none }
        else { s with remaining := none, pushCount := s.pushCount + 1 }
      else { s with remaining := some (r - 1) }

/-! ## SaveOrchestrator / SyncPipeline (`save_from_form`,
`_safe_pull_before_save`, `git_commit_all`) -/

/-- The repository-driver commands the pipeline can issue (each `_git`
invocation), with the staged/committed paths kept explicit. -/
inductive GitCmd
  | remoteList
  | fetch
  | pullRebaseAutostash
  | rebaseAbort
  | add (path : String)
  | addAll
  | diffCachedQuiet (path : Option String)
  | commit (msg : String) (path : Option String)
  | revParseShort
deriving DecidableEq

/-- The environment of one save: the settings flag and the outcomes of the
external commands and of the disk write. -/
structure SaveEnv where
  gitEnabled : Bool
  hasOrigin : Bool
  pullOk : Bool
  writeOk : Bool
  stagedDiffEmpty : Bool
  commitOk : Bool
  silent : Bool
deriving DecidableEq

/-- What `save_from_form` is saving: a document with the raw/Review text
authoritative, a document serialized from the structured form, folder
metadata, or nothing selected. -/
inductive SaveTarget
  | docRaw (path msg : String)
  | docStructured (path msg : String)
  | folderMeta (metaPath msg : String)
  | nothingSelected
deriving DecidableEq

/-- The observable outcome of one `save_from_form` call: the repository
commands issued in order, whether the target file was written, the dirty
flag afterwards, whether the debounced push countdown was armed, whether an
error dialog was shown, whether the conflict notice from
`_safe_pull_before_save` was shown, and whether the folder path's
"Folder metadata saved." info box was shown. -/
structure SaveResult where
  cmds : List GitCmd
  wrote : Bool
  dirty : Bool
  pushArmed : Bool
  errorShown : Bool
  conflictNotice : Bool
  savedInfoShown : Bool
deriving DecidableEq

/-- `_safe_pull_before_save`, returning
(ok-to-commit, commands issued, conflict notice shown): git disabled →
trivially ok with no commands; no `origin` remote → ok after the `remote`
query; otherwise `fetch` + `pull --rebase --autostash`, and on a non-zero
pull exit a `rebase --abort` is attempted, the conflict notice is shown,
and the caller is told not to commit. -/
def safe_pull_before_save (env : SaveEnv) : Bool × List GitCmd × Bool :=
  if !env.gitEnabled then (true, [], false)
  else if !env.hasOrigin then (true, [GitCmd.remoteList], false)
  else if env.pullOk then
    (true, [GitCmd.remoteList, GitCmd.fetch, GitCmd.pullRebaseAutostash], false)
  else
    (false, [GitCmd.remoteList, GitCmd.fetch, GitCmd.pullRebaseAutostash, GitCmd.rebaseAbort], true)

/-- `git_commit_all(repo_root, message)`: `add -A` (a blanket stage of
every change in the working copy), the staged-diff check, and an
unscoped commit when something is staged; returns the commands and the
True/False "committed" result. -/
def git_commit_all (env : SaveEnv) (msg : String) : List GitCmd × Bool :=
  if env.stagedDiffEmpty then ([GitCmd.addAll, GitCmd.diffCachedQuiet none], false)
  else ([GitCmd.addAll, GitCmd.diffCachedQuiet none, GitCmd.commit msg none], env.commitOk)

/-- The per-path commit block used by the raw-document save and the
folder-metadata save: stage only `path`, check the staged diff for `path`,
commit scoped to `path`, and on success read the short revision id;
returns the commands and whether the commit succeeded. -/
def commit_single_path (env : SaveEnv) (path msg : String) : List GitCmd × Bool :=
  if env.stagedDiffEmpty then
    ([GitCmd.add path, GitCmd.diffCachedQuiet (some path)], false)
  else if env.commitOk then
    ([GitCmd.add path, GitCmd.diffCachedQuiet (some path), GitCmd.commit msg (some path),
      GitCmd.revParseShort], true)
  else
    ([GitCmd.add path, GitCmd.diffCachedQuiet (some path), GitCmd.commit msg (some path)], false)

/-- `save_from_form(silent)` over the abstract environment; `dirty0` is the
dirty flag on entry.  Branch map to the source: pre-save pull (runs when a
file or folder is selected); raw/Review document save; structured document
save (via `build_markdown` and `git_commit_all`); folder-metadata save —
whose commit block, unlike the two document branches, is *not* guarded by
`allow_commit_push` or `git_enabled` (its skip-logging `else` is attached
to `try/except` and never fires on the skip conditions); a write failure
reports an error and returns before `_clear_dirty`.  `_schedule_git_push`
arms the countdown only when git is enabled. -/
def save_from_form (target : SaveTarget) (env : SaveEnv) (dirty0 : Bool) : SaveResult :=
  let pull :=
    match target with
    | SaveTarget.nothingSelected => (true, ([] : List GitCmd), false)
    | _ => safe_pull_before_save env
  let allowCommitPush := pull.1
  let pulled := pull.2.1
  let notice := pull.2.2
  match target with
  | SaveTarget.docRaw path msg =>
    if !env.writeOk then ⟨pulled, false, dirty0, false, true, notice, false⟩
    else if allowCommitPush && env.gitEnabled then
      let c := commit_single_path env path msg
      ⟨pulled ++ c.1, true, false, c.2, false, notice, false⟩
    else ⟨pulled, true, false, false, false, notice, false⟩
  | SaveTarget.docStructured _ msg =>
    if !env.writeOk then ⟨pulled, false, dirty0, false, true, notice, false⟩
    else if allowCommitPush && env.gitEnabled then
      let c := git_commit_all env msg
      ⟨pulled ++ c.1 ++ (if c.2 then [GitCmd.revParseShort] else []), true, false, c.2,
        false, notice, false⟩
    else ⟨pulled, true, false, false, false, notice, false⟩
  | SaveTarget.folderMeta metaPath msg =>
    if !env.writeOk then ⟨pulled, false, dirty0, false, true, notice, false⟩
    else
      let c := commit_single_path env metaPath msg
      ⟨pulled ++ c.1, true, false, c.2 && env.gitEnabled, false, notice, !env.silent⟩
  | SaveTarget.nothingSelected => ⟨[], false, dirty0, false, false, false, false⟩

/-! ## MetadataStore (`read_folder_meta`) -/

/-- A JSON-ish metadata value: a string or an array of strings (the `Tags`
field is stored as an array but read permissively). -/
inductive JVal
  | s (v : String)
  | arr (vs : List String)
deriving DecidableEq

/-- The folder-metadata keys read by `load_folder_meta` and written by
`save_from_form`. -/
def folderMetaKeys : List String :=
  ["TITLE", "DESCRIPTION", "Summary", "Owner", "Tags", "Created", "Last Updated"]

/-- Key lookup in a metadata record. -/
def lookupMeta (d : List (String × JVal)) (k : String) : Option JVal :=
  (d.find? (fun kv => kv.fst = k)).map Prod.snd

/-- Modelled from the spec: the sane defaults a freshly created metadata
record carries (empty texts, no tags, both dates stamped with today);
`read_folder_meta` itself is called by `load_folder_meta`,
`_default_owner_for_context` and `create_new_folder` but is not present in
the repository source. -/
def folderMetaDefaults (today : String) : List (String × JVal) :=
  [ ("TITLE", JVal.s ""), ("DESCRIPTION", JVal.s ""), ("Summary", JVal.s ""),
    ("Owner", JVal.s ""), ("Tags", JVal.arr []), ("Created", JVal.s today),
    ("Last Updated", JVal.s today) ]

/-- Modelled from the spec: the `setdefault`-chain backfill — every known
key absent from the record read from disk is filled with its default,
values already present are kept. -/
def backfillMeta (d defaults : List (String × JVal)) : List (String × JVal) :=
  defaults.foldl
    (fun acc kv => if (acc.find? (fun p => p.fst = kv.fst)).isSome then acc else acc ++ [kv]) d

/-- Modelled from the spec: `read_folder_meta(folder)` — reading a
directory's metadata always succeeds; when the file is absent a default
record is created lazily (the returned flag records that a file was
written); when present, the record is read permissively and backfilled
with defaults for missing fields. -/
def read_folder_meta (today : String) (disk : Option (List (String × JVal))) :
    List (String × JVal) × Bool :=
  match disk with
  | none => (folderMetaDefaults today, true)
  | some d => (backfillMeta d (folderMetaDefaults today), false)

/-! ## Round-trip well-formedness and the normal form of generated text -/

/-- A table-cell / fixed-field value that survives the round trip
unchanged: tame (see `tameChar`), single-line, free of `|`, and equal to
its own strip. -/
def cellOk (v : String) : Prop :=
  tameS v ∧ '\n' ∉ v.data ∧ '|' ∉ v.data ∧ stripL v.data = v.data

/-- A variant item that survives the round trip: tame, single-line,
trimmed, non-empty, and not the placeholder `"(none)"` in any casing. -/
def itemOk (it : String) : Prop :=
  tameS it ∧ '\n' ∉ it.data ∧ stripL it.data = it.data ∧ it.data ≠ [] ∧
    lowerL it.data ≠ ("(none)").data

/-- A free-text block that survives the round trip: tame, trimmed,
non-empty, and with no line that looks like a `##` header once stripped
and lowercased. -/
def bodyOk (b : String) : Prop :=
  tameS b ∧ stripL b.data = b.data ∧ b.data ≠ [] ∧
    ∀ ln ∈ splitChar '\n' b.data, isPrefixL (("##").data) (lowerL (stripL ln)) = false

/-- A revision row that survives the round trip: exactly the four
`REV_HEADERS` cells, each `cellOk`, and not a divider row (which
`build_table` would drop). -/
def rowOk (r : List String) : Prop :=
  ∃ a b c d, r = [a, b, c, d] ∧ cellOk a ∧ cellOk b ∧ cellOk c ∧ cellOk d ∧
    is_divider_cells (r.map pyStrip) = false

/-- The well-formed documents for which `parse ∘ build` is the identity:
the fields dict has exactly the `FIELD_ORDER` keys with `cellOk` values,
every revision row is `rowOk`, every variant item is `itemOk`, and every
free-text block is `bodyOk`. -/
def WFdoc (doc : CircuitDoc) : Prop :=
  (∃ v1 v2 v3 v4 v5 v6 v7,
    doc.fields =
      [ ("Title", v1), ("Part Number", v2), ("Notes", v3), ("Type of Design", v4),
        ("Level of Novelty", v5), ("Performance Feedback", v6),
        ("Verified Performance", v7) ] ∧
    cellOk v1 ∧ cellOk v2 ∧ cellOk v3 ∧ cellOk v4 ∧ cellOk v5 ∧ cellOk v6 ∧ cellOk v7) ∧
  (∀ r ∈ doc.revRows, rowOk r) ∧
  (∀ it ∈ doc.variantItems, itemOk it) ∧
  bodyOk doc.netlist ∧ bodyOk doc.partlistText ∧ bodyOk doc.circuitDescription ∧
  bodyOk doc.circuitTheory ∧ bodyOk doc.designAnalysis

/-- One generated Introduction table row. -/
def fieldLine (k v : String) : String :=
  String.mk (("| ").data ++ (pyLjust k 22).data ++ (" | ").data ++ v.data ++ (" |").data)

/-- One generated table body row. -/
def rowLine (r : List String) : String :=
  String.mk (("| ").data ++ joinSepL ((" | ").data) (r.map String.data) ++ (" |").data)

/-- One generated variant bullet line. -/
def bulletLine (it : String) : String := String.mk (("- ").data ++ it.data)

/-- The lines of a free-text block. -/
def bodyLinesOf (b : String) : List String := (splitChar '\n' b.data).map String.mk

/-- The generated Variant Details lines: the placeholder for an empty
list, otherwise one bullet per item. -/
def variantSegment (items : List String) : List String :=
  if items = [] then [("- (none)")] else items.map bulletLine

/-- The line list of `build_markdown today doc` for a well-formed `doc`:
the fixed skeleton in canonical section order with the document's rows,
bullets and body lines spliced in. -/
def generatedLines (today : String) (doc : CircuitDoc) : List String :=
  [ ("# Circuit Metadata"), "",
    String.mk (("**Last Updated:** ").data ++ today.data), "",
    ("## Introduction"), "",
    ("| Field                  | Value                     |"),
    ("| ---------------------- | ------------------------- |") ] ++
  doc.fields.map (fun kv => fieldLine kv.fst kv.snd) ++
  [ "", ("## Revision History"), "", tableHeaderLine REV_HEADERS, divider_for REV_HEADERS ] ++
  doc.revRows.map rowLine ++
  [ "", ("## Variant Details"), "" ] ++
  variantSegment doc.variantItems ++
  [ "", ("## Netlist"), "" ] ++ bodyLinesOf doc.netlist ++
  [ "", ("## Partlist"), "" ] ++ bodyLinesOf doc.partlistText ++
  [ "", ("## Circuit Description"), "" ] ++ bodyLinesOf doc.circuitDescription ++
  [ "", ("## Circuit Theory"), "" ] ++ bodyLinesOf doc.circuitTheory ++
  [ "", ("## Design Analysis"), "" ] ++ bodyLinesOf doc.designAnalysis

/-- The all-empty document: every field empty, no revision rows, no
variant items, every free-text block empty. -/
def docZero : CircuitDoc := ⟨initFields, [], [], "", "", "", "", ""⟩

/-- The generated lines from the Design Analysis header on. -/
def genFromDA (doc : CircuitDoc) : List String :=
  ["", ("## Design Analysis"), ""] ++ bodyLinesOf doc.designAnalysis

/-- The generated lines from the Circuit Theory header on. -/
def genFromCT (doc : CircuitDoc) : List String :=
  ["", ("## Circuit Theory"), ""] ++ bodyLinesOf doc.circuitTheory ++ genFromDA doc

/-- The generated lines from the Circuit Description header on. -/
def genFromCD (doc : CircuitDoc) : List String :=
  ["", ("## Circuit Description"), ""] ++ bodyLinesOf doc.circuitDescription ++ genFromCT doc

/-- The generated lines from the Partlist header on. -/
def genFromPL (doc : CircuitDoc) : List String :=
  ["", ("## Partlist"), ""] ++ bodyLinesOf doc.partlistText ++ genFromCD doc

/-- The generated lines from the Netlist header on. -/
def genFromNL (doc : CircuitDoc) : List String :=
  ["", ("## Netlist"), ""] ++ bodyLinesOf doc.netlist ++ genFromPL doc

/-- The generated lines from the Variant Details header on. -/
def genFromVD (doc : CircuitDoc) : List String :=
  ["", ("## Variant Details"), ""] ++ variantSegment doc.variantItems ++ genFromNL doc

/-- The generated lines from the Revision History header on. -/
def genFromRH (doc : CircuitDoc) : List String :=
  ["", ("## Revision History"), "", tableHeaderLine REV_HEADERS, divider_for REV_HEADERS] ++
    doc.revRows.map rowLine ++ genFromVD doc

/-- Normal form for newline-joined text: each line of `X` followed by a
newline, in front of the tail `T` (`X.foldr (fun x acc => x ++ '\n' :: acc) T`). -/
def fJoin (X : List (List Char)) (T : List Char) : List Char :=
  X.foldr (fun x acc => x ++ '\n' :: acc) T

/-! ## Lemmas: splitting and joining -/

theorem splitChar_ne_nil (sep : Char) (l : List Char) : splitChar sep l ≠ [] := by
  cases l with
  | nil => simp [splitChar]
  | cons c rest =>
    simp only [splitChar]
    split
    · simp
    · cases h : splitChar sep rest <;> simp

theorem splitChar_cons_self (sep : Char) (l : List Char) :
    splitChar sep (sep :: l) = [] :: splitChar sep l := by
  simp [splitChar]

theorem splitChar_cons_ne (sep c : Char) (l : List Char) (h : c ≠ sep) :
    ∃ h0 t, splitChar sep l = h0 :: t ∧ splitChar sep (c :: l) = (c :: h0) :: t := by
  cases hs : splitChar sep l with
  | nil => exact absurd hs (splitChar_ne_nil sep l)
  | cons h0 t => exact ⟨h0, t, rfl, by simp [splitChar, h, hs]⟩

theorem splitChar_append_sep (sep : Char) (a b : List Char) :
    splitChar sep (a ++ sep :: b) = splitChar sep a ++ splitChar sep b := by
  induction a with
  | nil => simp [splitChar_cons_self, splitChar]
  | cons c a ih =>
    by_cases h : c = sep
    · subst h
      rw [List.cons_append, splitChar_cons_self, splitChar_cons_self, ih, List.cons_append]
    · obtain ⟨h0, t, hs0, hc0⟩ := splitChar_cons_ne sep c a h
      obtain ⟨h1, t1, hs1, hc1⟩ := splitChar_cons_ne sep c (a ++ sep :: b) h
      rw [hs0] at ih
      rw [ih] at hs1
      rw [List.cons_append, hc1, hc0]
      simp only [List.cons_append] at hs1 ⊢
      injection hs1 with e1 e2
      rw [← e1, ← e2]

theorem splitChar_of_not_mem (sep : Char) (l : List Char) (h : sep ∉ l) :
    splitChar sep l = [l] := by
  induction l with
  | nil => rfl
  | cons c rest ih =>
    have hc : c ≠ sep := fun e => h (e ▸ List.mem_cons_self c rest)
    have hr : sep ∉ rest := fun m => h (List.mem_cons_of_mem c m)
    obtain ⟨h0, t, hs0, hc0⟩ := splitChar_cons_ne sep c rest hc
    rw [ih hr] at hs0
    injection hs0 with e1 e2
    rw [hc0, ← e1, ← e2]

theorem joinSepL_cons (sep : List Char) (x : List Char) (xs : List (List Char))
    (h : xs ≠ []) : joinSepL sep (x :: xs) = x ++ sep ++ joinSepL sep xs := by
  cases xs with
  | nil => exact absurd rfl h
  | cons y ys => rfl

theorem joinSepL_append_last (sep : List Char) (xs : List (List Char)) (y : List Char)
    (h : xs ≠ []) : joinSepL sep (xs ++ [y]) = joinSepL sep xs ++ sep ++ y := by
  induction xs with
  | nil => exact absurd rfl h
  | cons x xs ih =>
    cases xs with
    | nil => rfl
    | cons z zs =>
      rw [List.cons_append, joinSepL_cons sep x ((z :: zs) ++ [y]) (by simp),
        joinSepL_cons sep x (z :: zs) (by simp), ih (by simp)]
      simp [List.append_assoc]

theorem joinSepL_splitChar (sep : Char) (l : List Char) :
    joinSepL [sep] (splitChar sep l) = l := by
  induction l with
  | nil => rfl
  | cons c rest ih =>
    by_cases h : c = sep
    · subst h
      rw [splitChar_cons_self,
        joinSepL_cons [c] [] (splitChar c rest) (splitChar_ne_nil c rest), ih]
      rfl
    · obtain ⟨h0, t, hs0, hc0⟩ := splitChar_cons_ne sep c rest h
      rw [hc0]
      cases t with
      | nil =>
        rw [hs0] at ih
        simpa [joinSepL] using congrArg (c :: ·) ih
      | cons t1 ts =>
        rw [joinSepL_cons [sep] (c :: h0) (t1 :: ts) (by simp)]
        rw [hs0, joinSepL_cons [sep] h0 (t1 :: ts) (by simp)] at ih
        simpa [List.cons_append] using congrArg (c :: ·) ih

theorem splitChar_joinSepL (sep : Char) (ls : List (List Char)) (h : ls ≠ []) :
    splitChar sep (joinSepL [sep] ls) = (ls.map (splitChar sep)).flatten := by
  induction ls with
  | nil => exact absurd rfl h
  | cons x xs ih =>
    cases xs with
    | nil => simp [joinSepL]
    | cons y ys =>
      rw [joinSepL_cons [sep] x (y :: ys) (by simp), List.append_assoc, List.singleton_append,
        splitChar_append_sep, ih (by simp)]
      simp

/-! ## Lemmas: stripping -/

theorem lstripL_cons_ws {c : Char} (l : List Char) (h : pyWs c = true) :
    lstripL (c :: l) = lstripL l := by
  simp [lstripL, List.dropWhile, h]

theorem lstripL_cons_not_ws {c : Char} (l : List Char) (h : pyWs c = false) :
    lstripL (c :: l) = c :: l := by
  simp [lstripL, List.dropWhile, h]

theorem rstripL_append_ws {c : Char} (l : List Char) (h : pyWs c = true) :
    rstripL (l ++ [c]) = rstripL l := by
  simp [rstripL, List.dropWhile, h]

theorem rstripL_append_not_ws {c : Char} (l : List Char) (h : pyWs c = false) :
    rstripL (l ++ [c]) = l ++ [c] := by
  simp [rstripL, List.dropWhile, h]

theorem rstripL_cons_not_ws {c : Char} (l : List Char) (h : pyWs c = false) :
    rstripL (c :: l) = c :: rstripL l := by
  simp only [rstripL, List.reverse_cons, List.dropWhile_append]
  by_cases he : List.dropWhile pyWs l.reverse = []
  · simp [List.dropWhile, h, he]
  · simp [List.isEmpty_iff, he]

theorem stripL_cons_ws {c : Char} (l : List Char) (h : pyWs c = true) :
    stripL (c :: l) = stripL l := by
  simp [stripL, lstripL_cons_ws l h]

theorem stripL_cons_not_ws {c : Char} (l : List Char) (h : pyWs c = false) :
    stripL (c :: l) = c :: rstripL l := by
  simp [stripL, lstripL_cons_not_ws l h, rstripL_cons_not_ws l h]

theorem stripL_append_ws {c : Char} (l : List Char) (h : pyWs c = true) :
    stripL (l ++ [c]) = stripL l := by
  simp only [stripL, lstripL, List.dropWhile_append]
  by_cases he : List.dropWhile pyWs l = []
  · simp [List.dropWhile, h, he, rstripL]
  · simp only [List.isEmpty_iff, he, if_false]
    exact rstripL_append_ws _ h

theorem stripL_nil : stripL [] = [] := rfl

theorem head_dropWhile_ws (l : List Char) (c : Char)
    (h : (List.dropWhile pyWs l).head? = some c) : pyWs c = false := by
  induction l with
  | nil => simp at h
  | cons a as ih =>
    by_cases ha : pyWs a
    · rw [List.dropWhile_cons_of_pos ha] at h
      exact ih h
    · rw [List.dropWhile_cons_of_neg ha] at h
      simp only [List.head?_cons, Option.some.injEq] at h
      rw [← h]
      exact Bool.eq_false_iff.mpr ha

theorem rstripL_getLast_not_ws (l : List Char) (c : Char)
    (h : (rstripL l).getLast? = some c) : pyWs c = false := by
  rw [rstripL, List.getLast?_reverse] at h
  exact head_dropWhile_ws l.reverse c h

theorem lstripL_of_stripL_eq (l : List Char) (h : stripL l = l) : lstripL l = l := by
  have hs1 : (List.dropWhile pyWs l).Sublist l := List.dropWhile_sublist pyWs
  have h1 : (lstripL l).length ≤ l.length := hs1.length_le
  have h2 : (rstripL (lstripL l)).length ≤ (lstripL l).length := by
    have hs2 : (List.dropWhile pyWs (lstripL l).reverse).Sublist (lstripL l).reverse :=
      List.dropWhile_sublist pyWs
    rw [rstripL]
    calc ((lstripL l).reverse.dropWhile pyWs).reverse.length
        = ((lstripL l).reverse.dropWhile pyWs).length := List.length_reverse _
      _ ≤ (lstripL l).reverse.length := hs2.length_le
      _ = (lstripL l).length := List.length_reverse _
  rw [stripL] at h
  have hlen : (lstripL l).length = l.length := by
    have := congrArg List.length h
    omega
  exact List.Sublist.eq_of_length (List.dropWhile_sublist pyWs) hlen

theorem stripL_head_not_ws (l : List Char) (c : Char) (h : stripL l = l)
    (hc : l.head? = some c) : pyWs c = false := by
  have hl := lstripL_of_stripL_eq l h
  cases l with
  | nil => simp at hc
  | cons a as =>
    simp only [List.head?_cons, Option.some.injEq] at hc
    by_cases ha : pyWs a
    · exfalso
      rw [lstripL, List.dropWhile_cons_of_pos ha] at hl
      have h1 := congrArg List.length hl
      have hs : (List.dropWhile pyWs as).Sublist as := List.dropWhile_sublist pyWs
      have h2 := hs.length_le
      simp only [List.length_cons] at h1
      omega
    · rw [← hc]
      exact Bool.eq_false_iff.mpr ha

theorem stripL_getLast_not_ws (l : List Char) (c : Char) (h : stripL l = l)
    (hc : l.getLast? = some c) : pyWs c = false := by
  apply rstripL_getLast_not_ws (lstripL l) c
  have : rstripL (lstripL l) = l := h
  rw [this]
  exact hc

/-! ## Lemmas: prefixes -/

theorem isPrefixL_nil (l : List Char) : isPrefixL [] l = true := rfl

theorem isPrefixL_cons_nil (a : Char) (s : List Char) : isPrefixL (a :: s) [] = false := rfl

theorem isPrefixL_false_of_ne_head {a b : Char} (s t : List Char) (h : a ≠ b) :
    isPrefixL (a :: s) (b :: t) = false := by
  simp [isPrefixL, h]

theorem isPrefixL_shorten {a : Char} (s l : List Char)
    (h : isPrefixL (a :: s) l = true) : isPrefixL [a] l = true := by
  cases l with
  | nil => simp [isPrefixL] at h
  | cons b t =>
    simp only [isPrefixL, Bool.and_eq_true, decide_eq_true_eq] at h
    simp [isPrefixL, h.1]

/-! ## Lemmas: `strip("|")` and splitlines -/

theorem dropWhile_eqc_cons_self (c : Char) (l : List Char) :
    List.dropWhile (· = c) (c :: l) = List.dropWhile (· = c) l := by
  simp [List.dropWhile]

theorem dropWhile_eqc_cons_ne {a c : Char} (l : List Char) (h : a ≠ c) :
    List.dropWhile (· = c) (a :: l) = a :: l := by
  simp [List.dropWhile, h]

theorem stripAllL_pipe (mid : List Char) (h1 : mid.head? ≠ some '|')
    (h2 : mid.getLast? ≠ some '|') :
    stripAllL '|' ('|' :: (mid ++ ['|'])) = mid := by
  unfold stripAllL
  rw [dropWhile_eqc_cons_self]
  cases mid with
  | nil => simp [List.dropWhile]
  | cons m0 ms =>
    have hm0 : m0 ≠ '|' := by
      simp only [List.head?_cons, ne_eq, Option.some.injEq] at h1
      exact h1
    rw [List.cons_append, dropWhile_eqc_cons_ne _ hm0]
    rcases List.eq_nil_or_concat ms with hms | ⟨ms', mlast, hms⟩
    · subst hms
      simp [dropWhile_eqc_cons_self, dropWhile_eqc_cons_ne _ hm0]
    · subst hms
      simp only [List.concat_eq_append] at h1 h2 ⊢
      have hml : mlast ≠ '|' := by
        have hlast : (m0 :: (ms' ++ [mlast])).getLast? = some mlast := by
          rw [show m0 :: (ms' ++ [mlast]) = (m0 :: ms') ++ [mlast] from rfl]
          exact List.getLast?_concat _
        intro e
        exact h2 (hlast.trans (by rw [e]))
      have hrev : (m0 :: (ms' ++ [mlast] ++ ['|'])).reverse =
          '|' :: mlast :: (ms'.reverse ++ [m0]) := by simp
      rw [hrev, dropWhile_eqc_cons_self, dropWhile_eqc_cons_ne _ hml]
      have hrev2 : (m0 :: (ms' ++ [mlast])).reverse = mlast :: (ms'.reverse ++ [m0]) := by
        simp
      rw [← hrev2, List.reverse_reverse]

theorem splitChar_append_nl (l : List Char) :
    splitChar '\n' (l ++ ['\n']) = splitChar '\n' l ++ [[]] := by
  have h := splitChar_append_sep '\n' l []
  simpa [splitChar] using h

theorem pySplitlines_mk_nl (l : List Char) :
    pySplitlines (String.mk (l ++ ['\n'])) = (splitChar '\n' l).map String.mk := by
  unfold pySplitlines
  have hdata : (String.mk (l ++ ['\n'])).data = l ++ ['\n'] := rfl
  rw [hdata, splitChar_append_nl]
  simp [List.getLast?_concat, List.dropLast_concat]

theorem rstripL_eq_self (l : List Char) (c : Char) (hc : l.getLast? = some c)
    (h : pyWs c = false) : rstripL l = l := by
  rcases List.eq_nil_or_concat l with rfl | ⟨l', a, rfl⟩
  · simp at hc
  · simp only [List.concat_eq_append, List.getLast?_concat, Option.some.injEq] at hc
    simp only [List.concat_eq_append]
    subst hc
    exact rstripL_append_not_ws l' h

theorem splitChar_pieces_no_sep (sep : Char) (l : List Char) :
    ∀ p ∈ splitChar sep l, sep ∉ p := by
  induction l with
  | nil =>
    intro p hp
    simp [splitChar] at hp
    simp [hp]
  | cons c rest ih =>
    intro p hp
    by_cases h : c = sep
    · subst h
      rw [splitChar_cons_self] at hp
      rcases List.mem_cons.mp hp with hp | hp
      · simp [hp]
      · exact ih p hp
    · obtain ⟨h0, t, hs0, hc0⟩ := splitChar_cons_ne sep c rest h
      rw [hc0] at hp
      rcases List.mem_cons.mp hp with hp | hp
      · rw [hp]
        intro hm
        rcases List.mem_cons.mp hm with hm | hm
        · exact h hm.symm
        · exact ih h0 (hs0 ▸ List.mem_cons_self h0 t) hm
      · exact ih p (hs0 ▸ List.mem_cons_of_mem h0 hp)

theorem joinSepL_append (sep : List Char) (A B : List (List Char)) (hA : A ≠ [])
    (hB : B ≠ []) :
    joinSepL sep (A ++ B) = joinSepL sep A ++ sep ++ joinSepL sep B := by
  induction A with
  | nil => exact absurd rfl hA
  | cons x xs ih =>
    cases xs with
    | nil =>
      rw [List.singleton_append, joinSepL_cons sep x B hB]
      rfl
    | cons y ys =>
      rw [List.cons_append, joinSepL_cons sep x ((y :: ys) ++ B) (by simp),
        joinSepL_cons sep x (y :: ys) (by simp), ih (by simp)]
      simp [List.append_assoc]

theorem joinSepL_collapse_mid (sep : Char) (A B : List (List Char)) (inner : List (List Char))
    (hA : A ≠ []) (hB : B ≠ []) (hI : inner ≠ []) :
    joinSepL [sep] (A ++ [joinSepL [sep] inner] ++ B) = joinSepL [sep] (A ++ inner ++ B) := by
  rw [List.append_assoc A [joinSepL [sep] inner] B, List.append_assoc A inner B,
    joinSepL_append [sep] A ([joinSepL [sep] inner] ++ B) hA (by simp),
    joinSepL_append [sep] [joinSepL [sep] inner] B (by simp) hB,
    joinSepL_append [sep] A (inner ++ B) hA (by simp [hI]),
    joinSepL_append [sep] inner B hI hB]
  rfl

theorem joinSepL_collapse_last (sep : Char) (A : List (List Char)) (inner : List (List Char))
    (hA : A ≠ []) (hI : inner ≠ []) :
    joinSepL [sep] (A ++ [joinSepL [sep] inner]) = joinSepL [sep] (A ++ inner) := by
  rw [joinSepL_append [sep] A [joinSepL [sep] inner] hA (by simp),
    joinSepL_append [sep] A inner hA hI]
  rfl

theorem flatten_data_singletons (ls : List String) :
    (ls.map fun s => [s.data]).flatten = ls.map String.data := by
  induction ls with
  | nil => rfl
  | cons a as ih => simp [ih]

theorem pySplitlines_joinLines (ls : List String) (h : ls ≠ [])
    (hnl : ∀ s ∈ ls, '\n' ∉ s.data) :
    pySplitlines (String.mk (joinSepL ['\n'] (ls.map String.data) ++ ['\n'])) = ls := by
  rw [pySplitlines_mk_nl,
    splitChar_joinSepL '\n' (ls.map String.data) (by simpa using h)]
  have h1 : (ls.map String.data).map (splitChar '\n') = ls.map (fun s => [s.data]) := by
    rw [List.map_map]
    apply List.map_congr_left
    intro s hs
    exact splitChar_of_not_mem '\n' s.data (hnl s hs)
  rw [h1, flatten_data_singletons, List.map_map]
  have h2 : (String.mk ∘ String.data) = id := by
    funext s
    rfl
  rw [h2, List.map_id]

/-! ## Lemmas: the shape of `build_markdown` output under well-formedness -/

theorem pyStrip_eq_self (s : String) (h : stripL s.data = s.data) : pyStrip s = s := by
  show String.mk (stripL s.data) = s
  rw [h]

theorem build_block_of_bodyOk (h : String) (b : String) (hb : bodyOk b) :
    build_block h b = [String.mk (("## ").data ++ h.data), "", b] := by
  obtain ⟨-, hstrip, hne, -⟩ := hb
  unfold build_block
  rw [pyStrip_eq_self b hstrip]
  simp [hne]

theorem body_data_join (b : String) :
    joinSepL ['\n'] ((bodyLinesOf b).map String.data) = b.data := by
  unfold bodyLinesOf
  rw [List.map_map]
  have : (String.data ∘ String.mk) = id := by
    funext l
    rfl
  rw [this, List.map_id, joinSepL_splitChar]

theorem build_variant_list_of_itemOk (items : List String)
    (h : ∀ it ∈ items, itemOk it) :
    (build_variant_list items).data =
      joinSepL ['\n'] ((variantSegment items).map String.data) := by
  unfold build_variant_list variantSegment
  have hfm : items.filterMap (fun it =>
      let s := pyStrip it
      if s.data = [] then none else some s) = items := by
    induction items with
    | nil => rfl
    | cons a as ih =>
      have ha := h a (List.mem_cons_self a as)
      obtain ⟨-, -, hstrip, hne, -⟩ := ha
      simp [pyStrip_eq_self a hstrip, hne,
        ih (fun it hit => h it (List.mem_cons_of_mem a hit))]
  rw [hfm]
  by_cases he : items = []
  · subst he
    rfl
  · simp only [he, if_neg, if_false]
    congr 1
    rw [List.map_map]
    apply List.map_congr_left
    intro it _
    rfl

theorem rev_rows_filterMap (rows : List (List String)) (h : ∀ r ∈ rows, rowOk r) :
    List.filterMap (fun r =>
      if is_divider_cells (List.map pyStrip r) = true then none
      else some (['|', ' '] ++
        joinSepL [' ', '|', ' '] (List.map String.data (padRow REV_HEADERS.length r)) ++
        [' ', '|'])) rows
    = List.map (fun r => (rowLine r).data) rows := by
  induction rows with
  | nil => rfl
  | cons r rs ih =>
    have hr := h r (List.mem_cons_self r rs)
    obtain ⟨a, b, c, d, hr4, -, -, -, -, hdiv⟩ := hr
    have hpad : padRow REV_HEADERS.length r = r := by
      rw [hr4]
      rfl
    rw [List.filterMap_cons, hpad, hdiv]
    simp only [Bool.false_eq_true, if_false]
    rw [ih (fun r' hr' => h r' (List.mem_cons_of_mem r hr'))]
    rfl

theorem build_table_of_rowOk (rows : List (List String)) (h : ∀ r ∈ rows, rowOk r) :
    (build_table REV_HEADERS rows).data =
      joinSepL ['\n'] (((tableHeaderLine REV_HEADERS) :: (divider_for REV_HEADERS) ::
        rows.map rowLine).map String.data) := by
  unfold build_table
  show joinSepL ['\n'] _ = _
  rw [rev_rows_filterMap rows h, List.map_cons, List.map_cons, List.map_map]
  rfl

theorem build_intro_lines_shape (v1 v2 v3 v4 v5 v6 v7 : String)
    (h1 : stripL v1.data = v1.data) (h2 : stripL v2.data = v2.data)
    (h3 : stripL v3.data = v3.data) (h4 : stripL v4.data = v4.data)
    (h5 : stripL v5.data = v5.data) (h6 : stripL v6.data = v6.data)
    (h7 : stripL v7.data = v7.data) :
    build_intro_lines
      [ ("Title", v1), ("Part Number", v2), ("Notes", v3), ("Type of Design", v4),
        ("Level of Novelty", v5), ("Performance Feedback", v6),
        ("Verified Performance", v7) ] =
    [ ("| Field                  | Value                     |"),
      ("| ---------------------- | ------------------------- |") ] ++
    [ fieldLine ("Title") v1, fieldLine ("Part Number") v2, fieldLine ("Notes") v3,
      fieldLine ("Type of Design") v4, fieldLine ("Level of Novelty") v5,
      fieldLine ("Performance Feedback") v6, fieldLine ("Verified Performance") v7 ] := by
  have g1 : dictGetD
      [ ("Title", v1), ("Part Number", v2), ("Notes", v3), ("Type of Design", v4),
        ("Level of Novelty", v5), ("Performance Feedback", v6),
        ("Verified Performance", v7) ] ("Title") = v1 := rfl
  have g2 : dictGetD
      [ ("Title", v1), ("Part Number", v2), ("Notes", v3), ("Type of Design", v4),
        ("Level of Novelty", v5), ("Performance Feedback", v6),
        ("Verified Performance", v7) ] ("Part Number") = v2 := rfl
  have g3 : dictGetD
      [ ("Title", v1), ("Part Number", v2), ("Notes", v3), ("Type of Design", v4),
        ("Level of Novelty", v5), ("Performance Feedback", v6),
        ("Verified Performance", v7) ] ("Notes") = v3 := rfl
  have g4 : dictGetD
      [ ("Title", v1), ("Part Number", v2), ("Notes", v3), ("Type of Design", v4),
        ("Level of Novelty", v5), ("Performance Feedback", v6),
        ("Verified Performance", v7) ] ("Type of Design") = v4 := rfl
  have g5 : dictGetD
      [ ("Title", v1), ("Part Number", v2), ("Notes", v3), ("Type of Design", v4),
        ("Level of Novelty", v5), ("Performance Feedback", v6),
        ("Verified Performance", v7) ] ("Level of Novelty") = v5 := rfl
  have g6 : dictGetD
      [ ("Title", v1), ("Part Number", v2), ("Notes", v3), ("Type of Design", v4),
        ("Level of Novelty", v5), ("Performance Feedback", v6),
        ("Verified Performance", v7) ] ("Performance Feedback") = v6 := rfl
  have g7 : dictGetD
      [ ("Title", v1), ("Part Number", v2), ("Notes", v3), ("Type of Design", v4),
        ("Level of Novelty", v5), ("Performance Feedback", v6),
        ("Verified Performance", v7) ] ("Verified Performance") = v7 := rfl
  unfold build_intro_lines
  simp only [FIELD_ORDER, List.map_cons, List.map_nil, g1, g2, g3, g4, g5, g6, g7,
    h1, h2, h3, h4, h5, h6, h7]
  rfl

/-! ## Lemmas: newline-join normal forms -/

theorem data_mk (l : List Char) : (String.mk l).data = l := rfl

theorem joinSepL_single (sep : List Char) (x : List Char) : joinSepL sep [x] = x := rfl

theorem joinSepL_cons_cons (sep a b : List Char) (rest : List (List Char)) :
    joinSepL sep (a :: b :: rest) = a ++ sep ++ joinSepL sep (b :: rest) := rfl

theorem fJoin_nil (T : List Char) : fJoin [] T = T := rfl

theorem fJoin_cons (x : List Char) (X : List (List Char)) (T : List Char) :
    fJoin (x :: X) T = x ++ '\n' :: fJoin X T := rfl

theorem fJoin_append (X Y : List (List Char)) (T : List Char) :
    fJoin (X ++ Y) T = fJoin X (fJoin Y T) := by
  unfold fJoin
  rw [List.foldr_append]

theorem joinSepL_nl_cons (L : List (List Char)) (hL : L ≠ []) (T : List Char) :
    joinSepL ['\n'] L ++ '\n' :: T = fJoin L T := by
  induction L with
  | nil => exact absurd rfl hL
  | cons x xs ih =>
    cases xs with
    | nil => rfl
    | cons y ys =>
      rw [joinSepL_cons_cons, fJoin_cons, ← ih (by simp)]
      simp [List.append_assoc]

theorem joinSepL_nl_append (X B : List (List Char)) (hB : B ≠ []) :
    joinSepL ['\n'] (X ++ B) = fJoin X (joinSepL ['\n'] B) := by
  induction X with
  | nil => rfl
  | cons x xs ih =>
    rw [List.cons_append, fJoin_cons, ← ih]
    rw [joinSepL_cons ['\n'] x (xs ++ B)
      (fun h => hB (List.append_eq_nil.mp h).2)]
    simp [List.append_assoc]

theorem joinSepL_nl_cons_tail (x : List Char) (L : List (List Char)) (h : L ≠ []) :
    joinSepL ['\n'] (x :: L) = x ++ '\n' :: joinSepL ['\n'] L := by
  rw [joinSepL_cons ['\n'] x L h]
  simp [List.append_assoc]

theorem joinSepL_nl_cons_cons (a b : List Char) (rest : List (List Char)) :
    joinSepL ['\n'] (a :: b :: rest) = a ++ '\n' :: joinSepL ['\n'] (b :: rest) :=
  joinSepL_nl_cons_tail a (b :: rest) (by simp)

theorem bodyLinesOf_ne_nil (b : String) : bodyLinesOf b ≠ [] := by
  unfold bodyLinesOf
  intro h
  rw [List.map_eq_nil_iff] at h
  exact splitChar_ne_nil '\n' b.data h

theorem variantSegment_ne_nil (items : List String) : variantSegment items ≠ [] := by
  unfold variantSegment
  split
  · simp
  · next h => simp [h]

theorem fJoin_body (b : String) (T : List Char) :
    fJoin ((bodyLinesOf b).map String.data) T = b.data ++ '\n' :: T := by
  rw [← joinSepL_nl_cons ((bodyLinesOf b).map String.data)
    (by simp [List.map_eq_nil_iff, bodyLinesOf_ne_nil b]) T, body_data_join]

theorem fJoin_eq_append (X : List (List Char)) (T : List Char) :
    fJoin X T = fJoin X [] ++ T := by
  induction X with
  | nil => rfl
  | cons x xs ih =>
    rw [fJoin_cons, fJoin_cons, ih]
    simp [List.append_assoc]

theorem joinSepL_getLast (X : List String) (s : String) (hX : X.getLast? = some s)
    (hs : s.data ≠ []) :
    (joinSepL ['\n'] (X.map String.data)).getLast? = s.data.getLast? := by
  rcases List.eq_nil_or_concat X with rfl | ⟨X', a, rfl⟩
  · simp at hX
  · simp only [List.concat_eq_append, List.getLast?_concat, Option.some.injEq] at hX
    subst hX
    simp only [List.concat_eq_append]
    rw [List.map_append, List.map_cons, List.map_nil,
      joinSepL_nl_append (X'.map String.data) [a.data] (by simp),
      joinSepL_single, fJoin_eq_append, List.getLast?_append]
    cases hgl : a.data.getLast? with
    | none =>
      simp [List.getLast?_eq_none_iff] at hgl
      exact absurd hgl hs
    | some c => simp

theorem rstrip_joinLines_blank (X : List String) (s : String) (hX : X.getLast? = some s)
    (hs : s.data ≠ []) (hstrip : stripL s.data = s.data) :
    String.mk (rstripL (joinSepL ['\n'] ((X ++ [""]).map String.data)) ++ ['\n']) =
    String.mk (joinSepL ['\n'] (X.map String.data) ++ ['\n']) := by
  have hXne : X ≠ [] := by
    intro h
    rw [h] at hX
    simp at hX
  have hmapne : X.map String.data ≠ [] := by
    simp [List.map_eq_nil_iff, hXne]
  congr 1
  have h1 : (X ++ [""]).map String.data = X.map String.data ++ [[]] := by
    rw [List.map_append]
    rfl
  rw [h1, joinSepL_append_last ['\n'] (X.map String.data) [] hmapne, List.append_nil]
  have h2 : rstripL (joinSepL ['\n'] (X.map String.data) ++ ['\n']) =
      rstripL (joinSepL ['\n'] (X.map String.data)) :=
    rstripL_append_ws _ (by decide)
  rw [h2]
  congr 1
  cases hgl : s.data.getLast? with
  | none => simp [List.getLast?_eq_none_iff] at hgl; exact absurd hgl hs
  | some c =>
    exact rstripL_eq_self _ c ((joinSepL_getLast X s hX hs).trans hgl)
      (stripL_getLast_not_ws s.data c hstrip hgl)

set_option maxHeartbeats 3200000 in
theorem build_markdown_eq_joinLines (today : String) (doc : CircuitDoc) (hWF : WFdoc doc) :
    build_markdown today doc =
      String.mk (joinSepL ['\n'] ((generatedLines today doc).map String.data) ++ ['\n']) := by
  obtain ⟨⟨v1, v2, v3, v4, v5, v6, v7, hfields, hc1, hc2, hc3, hc4, hc5, hc6, hc7⟩,
    hrows, hitems, hnet, hpl, hcd, hct, hda⟩ := hWF
  have hIB := build_intro_lines_shape v1 v2 v3 v4 v5 v6 v7
    hc1.2.2.2 hc2.2.2.2 hc3.2.2.2 hc4.2.2.2 hc5.2.2.2 hc6.2.2.2 hc7.2.2.2
  have hVB := build_variant_list_of_itemOk doc.variantItems hitems
  have hTB := build_table_of_rowOk doc.revRows hrows
  have hBn := build_block_of_bodyOk ("Netlist") doc.netlist hnet
  have hBc := build_block_of_bodyOk SECTION_CD doc.circuitDescription hcd
  have hBt := build_block_of_bodyOk SECTION_CT doc.circuitTheory hct
  have hBd := build_block_of_bodyOk SECTION_DA doc.designAnalysis hda
  have hplstrip : pyStrip doc.partlistText = doc.partlistText := pyStrip_eq_self _ hpl.2.1
  have hplne : ¬ doc.partlistText.data = [] := hpl.2.2.1
  unfold build_markdown
  rw [hplstrip]
  simp only [hplne, if_false, ite_false]
  rw [hfields, hIB, hBn, hBc, hBt, hBd]
  rw [show
    ([ ("# Circuit Metadata"), "",
      String.mk (("**Last Updated:** ").data ++ today.data), "",
      ("## Introduction"), "",
      String.mk (joinSepL ['\n']
        (([ ("| Field                  | Value                     |"),
             ("| ---------------------- | ------------------------- |") ] ++
           [ fieldLine ("Title") v1, fieldLine ("Part Number") v2, fieldLine ("Notes") v3,
             fieldLine ("Type of Design") v4, fieldLine ("Level of Novelty") v5,
             fieldLine ("Performance Feedback") v6,
             fieldLine ("Verified Performance") v7 ]).map String.data)), "",
      ("## Revision History"), "",
      build_table REV_HEADERS doc.revRows, "",
      ("## Variant Details"), "",
      build_variant_list doc.variantItems, "" ] ++
      [String.mk (("## ").data ++ ("Netlist").data), "", doc.netlist] ++ [""] ++
      [("## Partlist"), "", doc.partlistText, ""] ++
      [String.mk (("## ").data ++ SECTION_CD.data), "", doc.circuitDescription] ++ [""] ++
      [String.mk (("## ").data ++ SECTION_CT.data), "", doc.circuitTheory] ++ [""] ++
      [String.mk (("## ").data ++ SECTION_DA.data), "", doc.designAnalysis] ++ [""]) =
    (([ ("# Circuit Metadata"), "",
      String.mk (("**Last Updated:** ").data ++ today.data), "",
      ("## Introduction"), "",
      String.mk (joinSepL ['\n']
        (([ ("| Field                  | Value                     |"),
             ("| ---------------------- | ------------------------- |") ] ++
           [ fieldLine ("Title") v1, fieldLine ("Part Number") v2, fieldLine ("Notes") v3,
             fieldLine ("Type of Design") v4, fieldLine ("Level of Novelty") v5,
             fieldLine ("Performance Feedback") v6,
             fieldLine ("Verified Performance") v7 ]).map String.data)), "",
      ("## Revision History"), "",
      build_table REV_HEADERS doc.revRows, "",
      ("## Variant Details"), "",
      build_variant_list doc.variantItems, "" ] ++
      [String.mk (("## ").data ++ ("Netlist").data), "", doc.netlist] ++ [""] ++
      [("## Partlist"), "", doc.partlistText, ""] ++
      [String.mk (("## ").data ++ SECTION_CD.data), "", doc.circuitDescription] ++ [""] ++
      [String.mk (("## ").data ++ SECTION_CT.data), "", doc.circuitTheory] ++ [""] ++
      [String.mk (("## ").data ++ SECTION_DA.data), "", doc.designAnalysis]) ++ [""])
    from by simp]
  rw [rstrip_joinLines_blank _ doc.designAnalysis (by simp) hda.2.2.1 hda.2.1]
  congr 2
  simp only [generatedLines, SECTION_CD, SECTION_CT, SECTION_DA, hfields, hTB, hVB,
    List.map_append, List.map_cons, List.map_nil,
    List.cons_append, List.nil_append, List.append_assoc, List.singleton_append, data_mk,
    joinSepL_nl_cons_tail, joinSepL_nl_cons_cons, joinSepL_single, joinSepL_nl_append,
    joinSepL_nl_cons, fJoin_cons, fJoin_nil, fJoin_append, fJoin_body, body_data_join,
    ne_eq, List.append_eq_nil, List.map_eq_nil_iff, bodyLinesOf_ne_nil,
    variantSegment_ne_nil, not_false_eq_true, List.cons_ne_nil, and_false, false_and]

/-! ## Lemmas: stripped shapes of generated lines -/

theorem lowerL_cons (c : Char) (l : List Char) :
    lowerL (c :: l) = Char.toLower c :: lowerL l := rfl

theorem stripL_eq_self_pipe (X : List Char) (h : X.getLast? = some '|') :
    stripL ('|' :: X) = '|' :: X := by
  rw [stripL_cons_not_ws X (by decide)]
  rw [rstripL_eq_self X '|' h (by decide)]

theorem getLast?_append_some {c : Char} (A B : List Char) (h : B.getLast? = some c) :
    (A ++ B).getLast? = some c := by
  rw [List.getLast?_append, h]
  rfl

theorem fieldLine_data_shape (k v : String) :
    (fieldLine k v).data =
      '|' :: ((' ' :: ((pyLjust k 22).data ++ (" | ").data ++ v.data)) ++ (" |").data) := rfl

theorem fieldLine_strip (k v : String) :
    stripL (fieldLine k v).data = (fieldLine k v).data := by
  rw [fieldLine_data_shape]
  exact stripL_eq_self_pipe _ (getLast?_append_some _ _ (by decide))

theorem rowLine_data_shape (r : List String) :
    (rowLine r).data =
      '|' :: ((' ' :: joinSepL ((" | ").data) (r.map String.data)) ++ (" |").data) := rfl

theorem rowLine_strip (r : List String) :
    stripL (rowLine r).data = (rowLine r).data := by
  rw [rowLine_data_shape]
  exact stripL_eq_self_pipe _ (getLast?_append_some _ _ (by decide))

theorem bulletLine_data_shape (it : String) :
    (bulletLine it).data = '-' :: (' ' :: it.data) := rfl

theorem bulletLine_strip (it : String) (h : stripL it.data = it.data) (hne : it.data ≠ []) :
    stripL (bulletLine it).data = (bulletLine it).data := by
  rw [bulletLine_data_shape, stripL_cons_not_ws _ (by decide)]
  congr 1
  cases hgl : it.data.getLast? with
  | none =>
    rw [List.getLast?_eq_none_iff] at hgl
    exact absurd hgl hne
  | some c =>
    exact rstripL_eq_self _ c (by rw [List.getLast?_cons, hgl]; rfl)
      (stripL_getLast_not_ws it.data c h hgl)

/-! ## Lemmas: section-header mismatches -/

theorem wantL_shape (title : String) :
    lowerL (("## ").data ++ title.data) = '#' :: '#' :: ' ' :: lowerL title.data := rfl

theorem ne_want_of_strip_head (d : List Char) (c : Char) (Y : List Char)
    (hs : stripL d = c :: Y) (hc : Char.toLower c ≠ '#') (title : String) :
    lowerL (stripL d) ≠ lowerL (("## ").data ++ title.data) := by
  rw [hs, wantL_shape, lowerL_cons]
  intro h
  injection h with h1 _
  exact hc h1

theorem fieldLine_ne_want (k v : String) (title : String) :
    lowerL (stripL (fieldLine k v).data) ≠ lowerL (("## ").data ++ title.data) :=
  ne_want_of_strip_head _ '|' _ ((fieldLine_strip k v).trans (fieldLine_data_shape k v))
    (by decide) title

theorem rowLine_ne_want (r : List String) (title : String) :
    lowerL (stripL (rowLine r).data) ≠ lowerL (("## ").data ++ title.data) :=
  ne_want_of_strip_head _ '|' _ ((rowLine_strip r).trans (rowLine_data_shape r))
    (by decide) title

theorem bulletLine_ne_want (it : String) (h : stripL it.data = it.data)
    (hne : it.data ≠ []) (title : String) :
    lowerL (stripL (bulletLine it).data) ≠ lowerL (("## ").data ++ title.data) :=
  ne_want_of_strip_head _ '-' _
    ((bulletLine_strip it h hne).trans (bulletLine_data_shape it)) (by decide) title

theorem variantSegment_ne_want (items : List String) (h : ∀ it ∈ items, itemOk it)
    (title : String) :
    ∀ ln ∈ variantSegment items,
      lowerL (stripL ln.data) ≠ lowerL (("## ").data ++ title.data) := by
  intro ln hln
  unfold variantSegment at hln
  by_cases he : items = []
  · simp only [he, if_true, List.mem_singleton] at hln
    subst hln
    exact ne_want_of_strip_head (("- (none)" : String).data) '-' ((" (none)" : String).data)
      (by decide) (by decide) title
  · simp only [he, if_false, ite_false, List.mem_map] at hln
    obtain ⟨it, hit, rfl⟩ := hln
    obtain ⟨-, -, hstrip, hne, -⟩ := h it hit
    exact bulletLine_ne_want it hstrip hne title

theorem tline_ne_want (today : String) (title : String) :
    lowerL (stripL (String.mk (("**Last Updated:** ").data ++ today.data)).data) ≠
      lowerL (("## ").data ++ title.data) := by
  have hs : stripL (String.mk (("**Last Updated:** ").data ++ today.data)).data =
      '*' :: rstripL (("*Last Updated:** ").data ++ today.data) :=
    stripL_cons_not_ws (("*Last Updated:** ").data ++ today.data) (by decide)
  exact ne_want_of_strip_head _ '*' _ hs (by decide) title

theorem blank_ne_want (title : String) :
    lowerL (stripL ("" : String).data) ≠ lowerL (("## ").data ++ title.data) := by
  rw [wantL_shape]
  exact fun h => nomatch h

theorem body_line_ne_want (ln : List Char)
    (h : isPrefixL (("##").data) (lowerL (stripL ln)) = false) (title : String) :
    lowerL (stripL ln) ≠ lowerL (("## ").data ++ title.data) := by
  rw [wantL_shape]
  intro he
  rw [he] at h
  simp [isPrefixL] at h

theorem bodyLinesOf_ne_want (b : String) (hb : bodyOk b) (title : String) :
    ∀ ln ∈ bodyLinesOf b,
      lowerL (stripL ln.data) ≠ lowerL (("## ").data ++ title.data) := by
  intro ln hln
  unfold bodyLinesOf at hln
  rw [List.mem_map] at hln
  obtain ⟨l, hl, rfl⟩ := hln
  exact body_line_ne_want l (hb.2.2.2 l hl) title

/-! ## Lemmas: walking `find_section` -/

theorem find_section_cons_ne (ln : String) (rest : List String) (title : String)
    (h : lowerL (stripL ln.data) ≠ lowerL (("## ").data ++ title.data)) :
    find_section (ln :: rest) title = find_section rest title := by
  show (if lowerL (stripL ln.data) = lowerL (("## ").data ++ title.data) then some rest
    else find_section rest title) = find_section rest title
  rw [if_neg h]

theorem find_section_cons_eq (ln : String) (rest : List String) (title : String)
    (h : lowerL (stripL ln.data) = lowerL (("## ").data ++ title.data)) :
    find_section (ln :: rest) title = some rest := by
  show (if lowerL (stripL ln.data) = lowerL (("## ").data ++ title.data) then some rest
    else find_section rest title) = some rest
  rw [if_pos h]

theorem find_section_append_skip (pre rest : List String) (title : String)
    (h : ∀ ln ∈ pre, lowerL (stripL ln.data) ≠ lowerL (("## ").data ++ title.data)) :
    find_section (pre ++ rest) title = find_section rest title := by
  induction pre with
  | nil => rfl
  | cons x xs ih =>
    rw [List.cons_append,
      find_section_cons_ne x (xs ++ rest) title (h x (List.mem_cons_self x xs)),
      ih (fun ln hln => h ln (List.mem_cons_of_mem x hln))]

theorem fields_map_ne_want (fields : List (String × String)) (title : String) :
    ∀ ln ∈ fields.map (fun kv => fieldLine kv.fst kv.snd),
      lowerL (stripL ln.data) ≠ lowerL (("## ").data ++ title.data) := by
  intro ln hln
  rw [List.mem_map] at hln
  obtain ⟨kv, -, rfl⟩ := hln
  exact fieldLine_ne_want kv.fst kv.snd title

theorem rows_map_ne_want (rows : List (List String)) (title : String) :
    ∀ ln ∈ rows.map rowLine,
      lowerL (stripL ln.data) ≠ lowerL (("## ").data ++ title.data) := by
  intro ln hln
  rw [List.mem_map] at hln
  obtain ⟨r, -, rfl⟩ := hln
  exact rowLine_ne_want r title

theorem generatedLines_decomp (today : String) (doc : CircuitDoc) :
    generatedLines today doc =
      [ ("# Circuit Metadata"), "",
        String.mk (("**Last Updated:** ").data ++ today.data), "",
        ("## Introduction"), "",
        ("| Field                  | Value                     |"),
        ("| ---------------------- | ------------------------- |") ] ++
      doc.fields.map (fun kv => fieldLine kv.fst kv.snd) ++ genFromRH doc := by
  unfold generatedLines genFromRH genFromVD genFromNL genFromPL genFromCD genFromCT genFromDA
  simp [List.append_assoc]

theorem find_gen_skip_head (today : String) (doc : CircuitDoc) (title : String)
    (hA : lowerL (stripL ("# Circuit Metadata" : String).data) ≠
      lowerL (("## ").data ++ title.data))
    (hI : lowerL (stripL ("## Introduction" : String).data) ≠
      lowerL (("## ").data ++ title.data))
    (hH1 : lowerL (stripL ("| Field                  | Value                     |" :
      String).data) ≠ lowerL (("## ").data ++ title.data))
    (hH2 : lowerL (stripL ("| ---------------------- | ------------------------- |" :
      String).data) ≠ lowerL (("## ").data ++ title.data)) :
    find_section (generatedLines today doc) title = find_section (genFromRH doc) title := by
  rw [generatedLines_decomp]
  apply find_section_append_skip
  intro ln hln
  rcases List.mem_append.mp hln with h8 | hmap
  · simp only [List.mem_cons, List.not_mem_nil, or_false] at h8
    rcases h8 with rfl | rfl | rfl | rfl | rfl | rfl | rfl | rfl
    · exact hA
    · exact blank_ne_want title
    · exact tline_ne_want today title
    · exact blank_ne_want title
    · exact hI
    · exact blank_ne_want title
    · exact hH1
    · exact hH2
  · exact fields_map_ne_want doc.fields title ln hmap

theorem gen_find_rev (today : String) (doc : CircuitDoc) :
    find_section (generatedLines today doc) ("Revision History") =
      some (["", tableHeaderLine REV_HEADERS, divider_for REV_HEADERS] ++
        doc.revRows.map rowLine ++ genFromVD doc) := by
  rw [find_gen_skip_head today doc _ (by decide) (by decide) (by decide) (by decide)]
  unfold genFromRH
  simp only [List.cons_append, List.nil_append]
  rw [find_section_cons_ne _ _ _ (blank_ne_want _),
    find_section_cons_eq _ _ _ (by decide)]

theorem gen_find_vd (today : String) (doc : CircuitDoc) :
    find_section (generatedLines today doc) ("Variant Details") =
      some ([""] ++ variantSegment doc.variantItems ++ genFromNL doc) := by
  rw [find_gen_skip_head today doc _ (by decide) (by decide) (by decide) (by decide)]
  unfold genFromRH
  simp only [List.cons_append, List.nil_append]
  rw [find_section_cons_ne _ _ _ (blank_ne_want _),
    find_section_cons_ne _ _ _ (by decide),
    find_section_cons_ne _ _ _ (blank_ne_want _),
    find_section_cons_ne _ _ _ (by decide),
    find_section_cons_ne _ _ _ (by decide),
    find_section_append_skip _ _ _ (rows_map_ne_want doc.revRows _)]
  unfold genFromVD
  simp only [List.cons_append, List.nil_append]
  rw [find_section_cons_ne _ _ _ (blank_ne_want _),
    find_section_cons_eq _ _ _ (by decide)]

theorem gen_find_nl (today : String) (doc : CircuitDoc)
    (hitems : ∀ it ∈ doc.variantItems, itemOk it) :
    find_section (generatedLines today doc) ("Netlist") =
      some ([""] ++ bodyLinesOf doc.netlist ++ genFromPL doc) := by
  rw [find_gen_skip_head today doc _ (by decide) (by decide) (by decide) (by decide)]
  unfold genFromRH
  simp only [List.cons_append, List.nil_append]
  rw [find_section_cons_ne _ _ _ (blank_ne_want _),
    find_section_cons_ne _ _ _ (by decide),
    find_section_cons_ne _ _ _ (blank_ne_want _),
    find_section_cons_ne _ _ _ (by decide),
    find_section_cons_ne _ _ _ (by decide),
    find_section_append_skip _ _ _ (rows_map_ne_want doc.revRows _)]
  unfold genFromVD
  simp only [List.cons_append, List.nil_append]
  rw [find_section_cons_ne _ _ _ (blank_ne_want _),
    find_section_cons_ne _ _ _ (by decide),
    find_section_cons_ne _ _ _ (blank_ne_want _),
    find_section_append_skip _ _ _ (variantSegment_ne_want doc.variantItems hitems _)]
  unfold genFromNL
  simp only [List.cons_append, List.nil_append]
  rw [find_section_cons_ne _ _ _ (blank_ne_want _),
    find_section_cons_eq _ _ _ (by decide)]

theorem gen_find_pl (today : String) (doc : CircuitDoc)
    (hitems : ∀ it ∈ doc.variantItems, itemOk it) (hnet : bodyOk doc.netlist) :
    find_section (generatedLines today doc) ("Partlist") =
      some ([""] ++ bodyLinesOf doc.partlistText ++ genFromCD doc) := by
  rw [find_gen_skip_head today doc _ (by decide) (by decide) (by decide) (by decide)]
  unfold genFromRH
  simp only [List.cons_append, List.nil_append]
  rw [find_section_cons_ne _ _ _ (blank_ne_want _),
    find_section_cons_ne _ _ _ (by decide),
    find_section_cons_ne _ _ _ (blank_ne_want _),
    find_section_cons_ne _ _ _ (by decide),
    find_section_cons_ne _ _ _ (by decide),
    find_section_append_skip _ _ _ (rows_map_ne_want doc.revRows _)]
  unfold genFromVD
  simp only [List.cons_append, List.nil_append]
  rw [find_section_cons_ne _ _ _ (blank_ne_want _),
    find_section_cons_ne _ _ _ (by decide),
    find_section_cons_ne _ _ _ (blank_ne_want _),
    find_section_append_skip _ _ _ (variantSegment_ne_want doc.variantItems hitems _)]
  unfold genFromNL
  simp only [List.cons_append, List.nil_append]
  rw [find_section_cons_ne _ _ _ (blank_ne_want _),
    find_section_cons_ne _ _ _ (by decide),
    find_section_cons_ne _ _ _ (blank_ne_want _),
    find_section_append_skip _ _ _ (bodyLinesOf_ne_want doc.netlist hnet _)]
  unfold genFromPL
  simp only [List.cons_append, List.nil_append]
  rw [find_section_cons_ne _ _ _ (blank_ne_want _),
    find_section_cons_eq _ _ _ (by decide)]

theorem gen_find_cd (today : String) (doc : CircuitDoc)
    (hitems : ∀ it ∈ doc.variantItems, itemOk it) (hnet : bodyOk doc.netlist)
    (hpl : bodyOk doc.partlistText) :
    find_section (generatedLines today doc) SECTION_CD =
      some ([""] ++ bodyLinesOf doc.circuitDescription ++ genFromCT doc) := by
  rw [find_gen_skip_head today doc _ (by decide) (by decide) (by decide) (by decide)]
  unfold genFromRH
  simp only [List.cons_append, List.nil_append]
  rw [find_section_cons_ne _ _ _ (blank_ne_want _),
    find_section_cons_ne _ _ _ (by decide),
    find_section_cons_ne _ _ _ (blank_ne_want _),
    find_section_cons_ne _ _ _ (by decide),
    find_section_cons_ne _ _ _ (by decide),
    find_section_append_skip _ _ _ (rows_map_ne_want doc.revRows _)]
  unfold genFromVD
  simp only [List.cons_append, List.nil_append]
  rw [find_section_cons_ne _ _ _ (blank_ne_want _),
    find_section_cons_ne _ _ _ (by decide),
    find_section_cons_ne _ _ _ (blank_ne_want _),
    find_section_append_skip _ _ _ (variantSegment_ne_want doc.variantItems hitems _)]
  unfold genFromNL
  simp only [List.cons_append, List.nil_append]
  rw [find_section_cons_ne _ _ _ (blank_ne_want _),
    find_section_cons_ne _ _ _ (by decide),
    find_section_cons_ne _ _ _ (blank_ne_want _),
    find_section_append_skip _ _ _ (bodyLinesOf_ne_want doc.netlist hnet _)]
  unfold genFromPL
  simp only [List.cons_append, List.nil_append]
  rw [find_section_cons_ne _ _ _ (blank_ne_want _),
    find_section_cons_ne _ _ _ (by decide),
    find_section_cons_ne _ _ _ (blank_ne_want _),
    find_section_append_skip _ _ _ (bodyLinesOf_ne_want doc.partlistText hpl _)]
  unfold genFromCD
  simp only [List.cons_append, List.nil_append]
  rw [find_section_cons_ne _ _ _ (blank_ne_want _),
    find_section_cons_eq _ _ _ (by decide)]

theorem gen_find_ct (today : String) (doc : CircuitDoc)
    (hitems : ∀ it ∈ doc.variantItems, itemOk it) (hnet : bodyOk doc.netlist)
    (hpl : bodyOk doc.partlistText) (hcd : bodyOk doc.circuitDescription) :
    find_section (generatedLines today doc) SECTION_CT =
      some ([""] ++ bodyLinesOf doc.circuitTheory ++ genFromDA doc) := by
  rw [find_gen_skip_head today doc _ (by decide) (by decide) (by decide) (by decide)]
  unfold genFromRH
  simp only [List.cons_append, List.nil_append]
  rw [find_section_cons_ne _ _ _ (blank_ne_want _),
    find_section_cons_ne _ _ _ (by decide),
    find_section_cons_ne _ _ _ (blank_ne_want _),
    find_section_cons_ne _ _ _ (by decide),
    find_section_cons_ne _ _ _ (by decide),
    find_section_append_skip _ _ _ (rows_map_ne_want doc.revRows _)]
  unfold genFromVD
  simp only [List.cons_append, List.nil_append]
  rw [find_section_cons_ne _ _ _ (blank_ne_want _),
    find_section_cons_ne _ _ _ (by decide),
    find_section_cons_ne _ _ _ (blank_ne_want _),
    find_section_append_skip _ _ _ (variantSegment_ne_want doc.variantItems hitems _)]
  unfold genFromNL
  simp only [List.cons_append, List.nil_append]
  rw [find_section_cons_ne _ _ _ (blank_ne_want _),
    find_section_cons_ne _ _ _ (by decide),
    find_section_cons_ne _ _ _ (blank_ne_want _),
    find_section_append_skip _ _ _ (bodyLinesOf_ne_want doc.netlist hnet _)]
  unfold genFromPL
  simp only [List.cons_append, List.nil_append]
  rw [find_section_cons_ne _ _ _ (blank_ne_want _),
    find_section_cons_ne _ _ _ (by decide),
    find_section_cons_ne _ _ _ (blank_ne_want _),
    find_section_append_skip _ _ _ (bodyLinesOf_ne_want doc.partlistText hpl _)]
  unfold genFromCD
  simp only [List.cons_append, List.nil_append]
  rw [find_section_cons_ne _ _ _ (blank_ne_want _),
    find_section_cons_ne _ _ _ (by decide),
    find_section_cons_ne _ _ _ (blank_ne_want _),
    find_section_append_skip _ _ _ (bodyLinesOf_ne_want doc.circuitDescription hcd _)]
  unfold genFromCT
  simp only [List.cons_append, List.nil_append]
  rw [find_section_cons_ne _ _ _ (blank_ne_want _),
    find_section_cons_eq _ _ _ (by decide)]

theorem gen_find_da (today : String) (doc : CircuitDoc)
    (hitems : ∀ it ∈ doc.variantItems, itemOk it) (hnet : bodyOk doc.netlist)
    (hpl : bodyOk doc.partlistText) (hcd : bodyOk doc.circuitDescription)
    (hct : bodyOk doc.circuitTheory) :
    find_section (generatedLines today doc) SECTION_DA =
      some ([""] ++ bodyLinesOf doc.designAnalysis) := by
  rw [find_gen_skip_head today doc _ (by decide) (by decide) (by decide) (by decide)]
  unfold genFromRH
  simp only [List.cons_append, List.nil_append]
  rw [find_section_cons_ne _ _ _ (blank_ne_want _),
    find_section_cons_ne _ _ _ (by decide),
    find_section_cons_ne _ _ _ (blank_ne_want _),
    find_section_cons_ne _ _ _ (by decide),
    find_section_cons_ne _ _ _ (by decide),
    find_section_append_skip _ _ _ (rows_map_ne_want doc.revRows _)]
  unfold genFromVD
  simp only [List.cons_append, List.nil_append]
  rw [find_section_cons_ne _ _ _ (blank_ne_want _),
    find_section_cons_ne _ _ _ (by decide),
    find_section_cons_ne _ _ _ (blank_ne_want _),
    find_section_append_skip _ _ _ (variantSegment_ne_want doc.variantItems hitems _)]
  unfold genFromNL
  simp only [List.cons_append, List.nil_append]
  rw [find_section_cons_ne _ _ _ (blank_ne_want _),
    find_section_cons_ne _ _ _ (by decide),
    find_section_cons_ne _ _ _ (blank_ne_want _),
    find_section_append_skip _ _ _ (bodyLinesOf_ne_want doc.netlist hnet _)]
  unfold genFromPL
  simp only [List.cons_append, List.nil_append]
  rw [find_section_cons_ne _ _ _ (blank_ne_want _),
    find_section_cons_ne _ _ _ (by decide),
    find_section_cons_ne _ _ _ (blank_ne_want _),
    find_section_append_skip _ _ _ (bodyLinesOf_ne_want doc.partlistText hpl _)]
  unfold genFromCD
  simp only [List.cons_append, List.nil_append]
  rw [find_section_cons_ne _ _ _ (blank_ne_want _),
    find_section_cons_ne _ _ _ (by decide),
    find_section_cons_ne _ _ _ (blank_ne_want _),
    find_section_append_skip _ _ _ (bodyLinesOf_ne_want doc.circuitDescription hcd _)]
  unfold genFromCT
  simp only [List.cons_append, List.nil_append]
  rw [find_section_cons_ne _ _ _ (blank_ne_want _),
    find_section_cons_ne _ _ _ (by decide),
    find_section_cons_ne _ _ _ (blank_ne_want _),
    find_section_append_skip _ _ _ (bodyLinesOf_ne_want doc.circuitTheory hct _)]
  unfold genFromDA
  simp only [List.cons_append, List.nil_append]
  rw [find_section_cons_ne _ _ _ (blank_ne_want _),
    find_section_cons_eq _ _ _ (by decide)]

/-! ## Lemmas: consuming the free-text sections -/

theorem takeWhile_append_pos {α : Type} (p : α → Bool) (A B : List α)
    (h : ∀ x ∈ A, p x = true) :
    List.takeWhile p (A ++ B) = A ++ List.takeWhile p B := by
  induction A with
  | nil => rfl
  | cons x xs ih =>
    rw [List.cons_append, List.takeWhile_cons_of_pos (h x (List.mem_cons_self x xs)),
      ih (fun y hy => h y (List.mem_cons_of_mem x hy)), List.cons_append]

theorem isPrefixL_exists (p l : List Char) (h : isPrefixL p l = true) :
    ∃ t, l = p ++ t := by
  induction p generalizing l with
  | nil => exact ⟨l, rfl⟩
  | cons a as ih =>
    cases l with
    | nil => simp [isPrefixL] at h
    | cons b bs =>
      simp only [isPrefixL, Bool.and_eq_true, decide_eq_true_eq] at h
      obtain ⟨t, ht⟩ := ih bs h.2
      exact ⟨t, by rw [h.1, ht]; rfl⟩

theorem raw_hash_of_start (d : List Char) (h : isPrefixL (("## ").data) d = true) :
    isPrefixL (("##").data) (lowerL (stripL d)) = true := by
  obtain ⟨t, rfl⟩ := isPrefixL_exists _ d h
  have h1 : stripL ('#' :: ('#' :: (' ' :: t))) = '#' :: ('#' :: rstripL (' ' :: t)) := by
    rw [stripL_cons_not_ws _ (by decide), rstripL_cons_not_ws _ (by decide)]
  rw [show ("## ").data ++ t = '#' :: ('#' :: (' ' :: t)) from rfl, h1]
  rfl

theorem stripL_ne_nil_of_last (l : List Char) (d : Char) (hl : l.getLast? = some d)
    (hd : pyWs d = false) : stripL l ≠ [] := by
  rcases List.eq_nil_or_concat l with rfl | ⟨l', a, rfl⟩
  · simp at hl
  · simp only [List.concat_eq_append, List.getLast?_concat, Option.some.injEq] at hl
    rw [← hl] at hd
    have hx : ∃ X, lstripL (l' ++ [a]) = X ++ [a] := by
      rw [lstripL, List.dropWhile_append]
      by_cases he : (List.dropWhile pyWs l').isEmpty
      · rw [if_pos he]
        exact ⟨[], by rw [List.dropWhile_cons_of_neg (by simp [hd])]; rfl⟩
      · rw [if_neg he]
        exact ⟨List.dropWhile pyWs l', rfl⟩
    obtain ⟨X, hX⟩ := hx
    simp only [List.concat_eq_append]
    show rstripL (lstripL (l' ++ [a])) ≠ []
    rw [hX, rstripL_append_not_ws _ hd]
    simp

theorem stripL_ne_nil_of_head (l : List Char) (c : Char) (hc : l.head? = some c)
    (h : pyWs c = false) : stripL l ≠ [] := by
  cases l with
  | nil => simp at hc
  | cons a as =>
    simp only [List.head?_cons, Option.some.injEq] at hc
    subst hc
    rw [stripL_cons_not_ws _ h]
    simp

theorem bodyLines_head (b : String) (hb : bodyOk b) :
    ∃ hd tl, bodyLinesOf b = hd :: tl ∧ stripL hd.data ≠ [] := by
  obtain ⟨-, hstrip, hne, -⟩ := hb
  cases hd : b.data with
  | nil => exact absurd hd hne
  | cons c r =>
    have hcw : pyWs c = false := stripL_head_not_ws b.data c hstrip (by rw [hd]; rfl)
    have hcn : c ≠ '\n' := by
      intro e
      rw [e] at hcw
      simp [pyWs] at hcw
    obtain ⟨h0, t, hs0, hc0⟩ := splitChar_cons_ne '\n' c r hcn
    refine ⟨String.mk (c :: h0), t.map String.mk, ?_, ?_⟩
    · unfold bodyLinesOf
      rw [hd, hc0, List.map_cons]
    · rw [data_mk]
      exact stripL_ne_nil_of_head _ c rfl hcw

theorem bodyLines_last (b : String) (hb : bodyOk b) :
    ∃ Y p, bodyLinesOf b = Y ++ [p] ∧ stripL p.data ≠ [] := by
  obtain ⟨-, hstrip, hne, -⟩ := hb
  have hglb : ∃ d, b.data.getLast? = some d ∧ pyWs d = false := by
    cases hgl : b.data.getLast? with
    | none =>
      rw [List.getLast?_eq_none_iff] at hgl
      exact absurd hgl hne
    | some d => exact ⟨d, rfl, stripL_getLast_not_ws b.data d hstrip hgl⟩
  obtain ⟨d, hgl, hdw⟩ := hglb
  rcases List.eq_nil_or_concat (splitChar '\n' b.data) with hsp | ⟨Y, p, hsp⟩
  · exact absurd hsp (splitChar_ne_nil '\n' b.data)
  · simp only [List.concat_eq_append] at hsp
    refine ⟨Y.map String.mk, String.mk p, ?_, ?_⟩
    · unfold bodyLinesOf
      rw [hsp, List.map_append, List.map_cons, List.map_nil]
    · rw [data_mk]
      have hjoin : joinSepL ['\n'] (Y ++ [p]) = b.data := by
        rw [← hsp]
        exact joinSepL_splitChar '\n' b.data
      cases hY : Y with
      | nil =>
        rw [hY, List.nil_append, joinSepL_single] at hjoin
        rw [hjoin, hstrip]
        exact hne
      | cons y ys =>
        rw [joinSepL_append_last ['\n'] Y p (by rw [hY]; simp)] at hjoin
        cases hp : p.getLast? with
        | none =>
          rw [List.getLast?_eq_none_iff] at hp
          rw [hp, List.append_nil] at hjoin
          rw [← hjoin, List.getLast?_concat] at hgl
          injection hgl with e
          rw [← e] at hdw
          simp [pyWs] at hdw
        | some q =>
          have hlq : b.data.getLast? = some q := by
            rw [← hjoin]
            exact getLast?_append_some _ p hp
          rw [hlq] at hgl
          injection hgl with e
          rw [e] at hp
          exact stripL_ne_nil_of_last p d hp hdw

theorem takeWhile_all {α : Type} (p : α → Bool) (A : List α)
    (h : ∀ x ∈ A, p x = true) : List.takeWhile p A = A := by
  induction A with
  | nil => rfl
  | cons x xs ih =>
    rw [List.takeWhile_cons_of_pos (h x (List.mem_cons_self x xs)),
      ih (fun y hy => h y (List.mem_cons_of_mem x hy))]

theorem trim_blank_edges (L : List String)
    (hL : ∃ h t, L = h :: t ∧ stripL h.data ≠ [])
    (hLast : ∃ Y p, L = Y ++ [p] ∧ stripL p.data ≠ []) :
    ((((("" : String) :: (L ++ [("" : String)])).dropWhile
        (fun ln => stripL ln.data = [])).reverse.dropWhile
        (fun ln => stripL ln.data = [])).reverse) = L := by
  obtain ⟨h, t, rfl, hh⟩ := hL
  obtain ⟨Y, p, hYp, hp⟩ := hLast
  rw [List.dropWhile_cons_of_pos (by decide), List.cons_append,
    List.dropWhile_cons_of_neg (by simp [hh]), ← List.cons_append]
  rw [hYp, show ((Y ++ [p]) ++ [("" : String)]).reverse
      = ("" : String) :: (p :: Y.reverse) from by simp]
  rw [List.dropWhile_cons_of_pos (by decide),
    List.dropWhile_cons_of_neg (by simp [hp])]
  simp

theorem trim_blank_front (L : List String)
    (hL : ∃ h t, L = h :: t ∧ stripL h.data ≠ [])
    (hLast : ∃ Y p, L = Y ++ [p] ∧ stripL p.data ≠ []) :
    ((((("" : String) :: L).dropWhile
        (fun ln => stripL ln.data = [])).reverse.dropWhile
        (fun ln => stripL ln.data = [])).reverse) = L := by
  obtain ⟨h, t, rfl, hh⟩ := hL
  obtain ⟨Y, p, hYp, hp⟩ := hLast
  rw [List.dropWhile_cons_of_pos (by decide),
    List.dropWhile_cons_of_neg (by simp [hh])]
  rw [hYp, show (Y ++ [p]).reverse = p :: Y.reverse from by simp,
    List.dropWhile_cons_of_neg (by simp [hp])]
  simp

theorem bodyLines_no_hash (b : String) (hb : bodyOk b) :
    ∀ ln ∈ bodyLinesOf b, isPrefixL (("## ").data) ln.data = false := by
  intro ln hln
  unfold bodyLinesOf at hln
  rw [List.mem_map] at hln
  obtain ⟨l, hl, rfl⟩ := hln
  have h := hb.2.2.2 l hl
  rw [data_mk]
  by_cases hp : isPrefixL (("## ").data) l = true
  · exact absurd (raw_hash_of_start l hp) (by rw [h]; simp)
  · simpa using hp

theorem read_section_gen (b : String) (hb : bodyOk b) (hdr : String)
    (hhdr : isPrefixL (("## ").data) hdr.data = true) (rest : List String) :
    read_section_text (("" : String) :: (bodyLinesOf b ++ (("" : String) :: hdr :: rest)))
      = b := by
  have htake : List.takeWhile (fun ln => !isPrefixL (("## ").data) ln.data)
      (("" : String) :: (bodyLinesOf b ++ (("" : String) :: hdr :: rest)))
      = ("" : String) :: (bodyLinesOf b ++ [("" : String)]) := by
    rw [List.takeWhile_cons_of_pos (by decide),
      takeWhile_append_pos _ (bodyLinesOf b) _ (fun x hx => by
        show (!isPrefixL (("## ").data) x.data) = true
        rw [bodyLines_no_hash b hb x hx]
        rfl),
      List.takeWhile_cons_of_pos (by decide),
      List.takeWhile_cons_of_neg (by simp [hhdr])]
  show String.mk (joinSepL ['\n']
    ((((((("" : String) :: (bodyLinesOf b ++ (("" : String) :: hdr :: rest))).takeWhile
      (fun ln => !isPrefixL (("## ").data) ln.data)).dropWhile
      (fun ln => stripL ln.data = [])).reverse.dropWhile
      (fun ln => stripL ln.data = [])).reverse).map String.data)) = b
  rw [htake, trim_blank_edges (bodyLinesOf b) (bodyLines_head b hb) (bodyLines_last b hb),
    body_data_join]

theorem read_section_gen_last (b : String) (hb : bodyOk b) :
    read_section_text (("" : String) :: bodyLinesOf b) = b := by
  have htake : List.takeWhile (fun ln => !isPrefixL (("## ").data) ln.data)
      (("" : String) :: bodyLinesOf b) = ("" : String) :: bodyLinesOf b := by
    apply takeWhile_all
    intro x hx
    rcases List.mem_cons.mp hx with rfl | hx'
    · decide
    · show (!isPrefixL (("## ").data) x.data) = true
      rw [bodyLines_no_hash b hb x hx']
      rfl
  show String.mk (joinSepL ['\n']
    (((((("" : String) :: bodyLinesOf b).takeWhile
      (fun ln => !isPrefixL (("## ").data) ln.data)).dropWhile
      (fun ln => stripL ln.data = [])).reverse.dropWhile
      (fun ln => stripL ln.data = [])).reverse.map String.data)) = b
  rw [htake, trim_blank_front (bodyLinesOf b) (bodyLines_head b hb) (bodyLines_last b hb),
    body_data_join]

/-! ## Lemmas: consuming the Variant Details bullets -/

theorem collectBullets_cons_hash (ln : String) (rest : List String)
    (h : isPrefixL (("## ").data) ln.data = true) :
    collectBullets (ln :: rest) = [] := by
  show (if isPrefixL (("## ").data) ln.data = true then ([] : List String)
    else if isPrefixL (("- ").data) (stripL ln.data) = true then
      String.mk (stripL ((stripL ln.data).drop 2)) :: collectBullets rest
    else if isPrefixL (("* ").data) (stripL ln.data) = true then
      String.mk (stripL ((stripL ln.data).drop 2)) :: collectBullets rest
    else collectBullets rest) = []
  rw [if_pos h]

theorem collectBullets_cons_dash (ln : String) (rest : List String)
    (h1 : isPrefixL (("## ").data) ln.data = false)
    (h2 : isPrefixL (("- ").data) (stripL ln.data) = true) :
    collectBullets (ln :: rest)
      = String.mk (stripL ((stripL ln.data).drop 2)) :: collectBullets rest := by
  show (if isPrefixL (("## ").data) ln.data = true then ([] : List String)
    else if isPrefixL (("- ").data) (stripL ln.data) = true then
      String.mk (stripL ((stripL ln.data).drop 2)) :: collectBullets rest
    else if isPrefixL (("* ").data) (stripL ln.data) = true then
      String.mk (stripL ((stripL ln.data).drop 2)) :: collectBullets rest
    else collectBullets rest)
    = String.mk (stripL ((stripL ln.data).drop 2)) :: collectBullets rest
  rw [if_neg (by simp [h1]), if_pos h2]

theorem collectBullets_cons_skip (ln : String) (rest : List String)
    (h1 : isPrefixL (("## ").data) ln.data = false)
    (h2 : isPrefixL (("- ").data) (stripL ln.data) = false)
    (h3 : isPrefixL (("* ").data) (stripL ln.data) = false) :
    collectBullets (ln :: rest) = collectBullets rest := by
  show (if isPrefixL (("## ").data) ln.data = true then ([] : List String)
    else if isPrefixL (("- ").data) (stripL ln.data) = true then
      String.mk (stripL ((stripL ln.data).drop 2)) :: collectBullets rest
    else if isPrefixL (("* ").data) (stripL ln.data) = true then
      String.mk (stripL ((stripL ln.data).drop 2)) :: collectBullets rest
    else collectBullets rest) = collectBullets rest
  rw [if_neg (by simp [h1]), if_neg (by simp [h2]), if_neg (by simp [h3])]

theorem collectBullets_bullet (it : String) (hit : itemOk it) (rest : List String) :
    collectBullets (bulletLine it :: rest) = it :: collectBullets rest := by
  obtain ⟨-, -, hstrip, hne, -⟩ := hit
  have hsl : stripL (bulletLine it).data = '-' :: (' ' :: it.data) :=
    (bulletLine_strip it hstrip hne).trans (bulletLine_data_shape it)
  rw [collectBullets_cons_dash _ rest (by rfl) (by rw [hsl]; rfl), hsl]
  rw [show ('-' :: (' ' :: it.data)).drop 2 = it.data from rfl, hstrip]

theorem collectBullets_none_line (rest : List String) :
    collectBullets (("- (none)" : String) :: rest)
      = ("(none)" : String) :: collectBullets rest := by
  rw [collectBullets_cons_dash _ rest (by decide) (by decide),
    show String.mk (stripL ((stripL ("- (none)" : String).data).drop 2))
      = ("(none)" : String) from by decide]

theorem collectBullets_items (items : List String) (hitems : ∀ it ∈ items, itemOk it)
    (hdr : String) (hhash : isPrefixL (("## ").data) hdr.data = true) (rest : List String) :
    collectBullets (items.map bulletLine ++ (("" : String) :: hdr :: rest)) = items := by
  induction items with
  | nil =>
    simp only [List.map_nil, List.nil_append]
    rw [collectBullets_cons_skip _ _ (by decide) (by decide) (by decide)]
    exact collectBullets_cons_hash _ _ hhash
  | cons x xs ih =>
    simp only [List.map_cons, List.cons_append]
    rw [collectBullets_bullet x (hitems x (List.mem_cons_self x xs)) _,
      ih (fun it h => hitems it (List.mem_cons_of_mem x h))]

theorem parse_bulleted_gen (items : List String) (hitems : ∀ it ∈ items, itemOk it)
    (hdr : String) (hhash : isPrefixL (("## ").data) hdr.data = true) (rest : List String) :
    parse_bulleted_list
      (("" : String) :: (variantSegment items ++ (("" : String) :: hdr :: rest))) = items := by
  unfold parse_bulleted_list
  rw [collectBullets_cons_skip _ _ (by decide) (by decide) (by decide)]
  by_cases he : items = []
  · rw [he, show variantSegment [] = [("- (none)" : String)] from rfl,
      List.singleton_append, collectBullets_none_line,
      collectBullets_cons_skip _ _ (by decide) (by decide) (by decide),
      collectBullets_cons_hash _ _ hhash]
    decide
  · rw [variantSegment, if_neg he, collectBullets_items items hitems hdr hhash rest]
    apply List.filter_eq_self.mpr
    intro a ha
    simpa using (hitems a ha).2.2.2.2

/-! ## Lemmas: consuming the Revision History table -/

theorem stripL_space_edges (l : List Char) :
    stripL (' ' :: (l ++ [' '])) = stripL l := by
  rw [stripL_cons_ws _ (by decide), stripL_append_ws _ (by decide)]

theorem no_pipe_cell (l : List Char) (h : '|' ∉ l) : '|' ∉ ' ' :: (l ++ [' ']) := by
  intro hm
  rcases List.mem_cons.mp hm with h1 | hm2
  · exact absurd h1 (by decide)
  · rcases List.mem_append.mp hm2 with h2 | h3
    · exact h h2
    · exact absurd (List.mem_singleton.mp h3) (by decide)

theorem splitRow (r : List String) (hne : r ≠ [])
    (hbar : ∀ c ∈ r, '|' ∉ c.data) :
    splitChar '|' ((' ' :: joinSepL ((" | ").data) (r.map String.data)) ++ [' '])
      = r.map (fun c => ' ' :: (c.data ++ [' '])) := by
  induction r with
  | nil => exact absurd rfl hne
  | cons x xs ih =>
    cases xs with
    | nil =>
      rw [List.map_cons, List.map_nil, joinSepL_single,
        splitChar_of_not_mem '|' _ (by
          intro hm
          rcases List.mem_append.mp hm with h1 | h3
          · rcases List.mem_cons.mp h1 with h1a | h1b
            · exact absurd h1a (by decide)
            · exact hbar x (List.mem_cons_self x []) h1b
          · exact absurd (List.mem_singleton.mp h3) (by decide))]
      rfl
    | cons y ys =>
      have hJ : joinSepL ((" | ").data) ((x :: y :: ys).map String.data)
          = x.data ++ (" | ").data ++
            joinSepL ((" | ").data) ((y :: ys).map String.data) := by
        rw [List.map_cons]
        exact joinSepL_cons _ _ _ (by simp)
      rw [hJ, show ((" | ").data : List Char) = [' ', '|', ' '] from rfl]
      rw [show (' ' :: (x.data ++ [' ', '|', ' '] ++
            joinSepL [' ', '|', ' '] ((y :: ys).map String.data))) ++ [' ']
          = (' ' :: (x.data ++ [' '])) ++
            ('|' :: ((' ' :: joinSepL [' ', '|', ' '] ((y :: ys).map String.data)) ++ [' ']))
        from by simp [List.append_assoc]]
      rw [splitChar_append_sep,
        splitChar_of_not_mem '|' _
          (no_pipe_cell x.data (hbar x (List.mem_cons_self x (y :: ys))))]
      rw [show joinSepL [' ', '|', ' '] ((y :: ys).map String.data)
          = joinSepL ((" | ").data) ((y :: ys).map String.data) from rfl]
      rw [ih (by simp) (fun c hc => hbar c (List.mem_cons_of_mem x hc))]
      rfl

theorem rowLine_cells (r : List String) (hne : r ≠ [])
    (hbar : ∀ c ∈ r, '|' ∉ c.data) :
    splitChar '|' (stripAllL '|' (stripL (rowLine r).data))
      = r.map (fun c => ' ' :: (c.data ++ [' '])) := by
  rw [rowLine_strip, rowLine_data_shape]
  rw [show (' ' :: joinSepL ((" | ").data) (r.map String.data)) ++ (" |").data
      = ((' ' :: joinSepL ((" | ").data) (r.map String.data)) ++ [' ']) ++ ['|']
    from by simp only [List.append_assoc]; rfl]
  rw [stripAllL_pipe _ (by rw [List.cons_append]; simp)
    (by rw [@getLast?_append_some ' ' _ [' '] (by decide)]; decide)]
  exact splitRow r hne hbar

theorem rowOk_cells (r : List String) (h : rowOk r) :
    r ≠ [] ∧ ∀ c ∈ r, '|' ∉ c.data ∧ stripL c.data = c.data := by
  obtain ⟨a, b, c, d, hr, ha, hb, hc, hd, -⟩ := h
  subst hr
  refine ⟨by simp, ?_⟩
  intro x hx
  rcases List.mem_cons.mp hx with rfl | hx
  · exact ⟨ha.2.2.1, ha.2.2.2⟩
  rcases List.mem_cons.mp hx with rfl | hx
  · exact ⟨hb.2.2.1, hb.2.2.2⟩
  rcases List.mem_cons.mp hx with rfl | hx
  · exact ⟨hc.2.2.1, hc.2.2.2⟩
  rcases List.mem_cons.mp hx with rfl | hx
  · exact ⟨hd.2.2.1, hd.2.2.2⟩
  · exact absurd hx (List.not_mem_nil x)

theorem parseCells_rowLine (r : List String) (h : rowOk r) :
    parseCells (rowLine r) = r := by
  obtain ⟨hne, hcells⟩ := rowOk_cells r h
  unfold parseCells
  rw [rowLine_cells r hne (fun c hc => (hcells c hc).1), List.map_map]
  have h2 : r.map ((fun c => String.mk (stripL c)) ∘ (fun c => ' ' :: (c.data ++ [' '])))
      = r.map id :=
    List.map_congr_left (fun c hc => by
      show String.mk (stripL (' ' :: (c.data ++ [' ']))) = c
      rw [stripL_space_edges, (hcells c hc).2])
  rw [h2, List.map_id]

theorem rowLine_bar (r : List String) : isPrefixL ['|'] (stripL (rowLine r).data) = true := by
  rw [rowLine_strip, rowLine_data_shape]
  rfl

theorem rowLine_not_divider (r : List String) (hrow : rowOk r) :
    is_md_divider_line (rowLine r) = false := by
  have hcells := rowOk_cells r hrow
  have hrl := rowLine_cells r hcells.1 (fun c hc => (hcells.2 c hc).1)
  obtain ⟨a, b, c, d, hr, ha, hb, hc, hd, hdiv⟩ := hrow
  subst hr
  show (isPrefixL ['|'] (stripL (rowLine [a, b, c, d]).data) &&
      isPrefixL ['|'] (stripL (rowLine [a, b, c, d]).data).reverse &&
      (splitChar '|' (stripAllL '|' (stripL (rowLine [a, b, c, d]).data))).all
        (fun x => dividerCellL (stripL x))) = false
  rw [hrl]
  unfold is_divider_cells at hdiv
  simp only [List.map_cons, List.map_nil, List.all_cons, List.all_nil, List.isEmpty_cons,
    Bool.not_false, Bool.true_and, Bool.and_true, pyStrip, data_mk,
    ha.2.2.2, hb.2.2.2, hc.2.2.2, hd.2.2.2] at hdiv
  simp only [List.map_cons, List.map_nil, List.all_cons, List.all_nil, stripL_space_edges,
    Bool.and_true, ha.2.2.2, hb.2.2.2, hc.2.2.2, hd.2.2.2]
  rw [hdiv, Bool.and_false]

theorem revConsume_cons_row (ln : String) (rest : List String)
    (hbar : isPrefixL ['|'] (stripL ln.data) = true)
    (hdiv : is_md_divider_line ln = false) :
    revConsume (ln :: rest) = parseCells ln :: revConsume rest := by
  show (if isPrefixL ['|'] (stripL ln.data) = true then
      if is_md_divider_line ln = true then revConsume rest
      else parseCells ln :: revConsume rest
    else []) = parseCells ln :: revConsume rest
  rw [if_pos hbar, if_neg (by simp [hdiv])]

theorem revConsume_cons_div (ln : String) (rest : List String)
    (hbar : isPrefixL ['|'] (stripL ln.data) = true)
    (hdiv : is_md_divider_line ln = true) :
    revConsume (ln :: rest) = revConsume rest := by
  show (if isPrefixL ['|'] (stripL ln.data) = true then
      if is_md_divider_line ln = true then revConsume rest
      else parseCells ln :: revConsume rest
    else []) = revConsume rest
  rw [if_pos hbar, if_pos hdiv]

theorem revConsume_stop (ln : String) (rest : List String)
    (hbar : isPrefixL ['|'] (stripL ln.data) = false) :
    revConsume (ln :: rest) = [] := by
  show (if isPrefixL ['|'] (stripL ln.data) = true then
      if is_md_divider_line ln = true then revConsume rest
      else parseCells ln :: revConsume rest
    else []) = []
  rw [if_neg (by simp [hbar])]

theorem revConsume_rows (rows : List (List String)) (hrows : ∀ r ∈ rows, rowOk r)
    (next : String) (hnext : isPrefixL ['|'] (stripL next.data) = false)
    (rest : List String) :
    revConsume (rows.map rowLine ++ (next :: rest)) = rows := by
  induction rows with
  | nil =>
    simp only [List.map_nil, List.nil_append]
    exact revConsume_stop next rest hnext
  | cons r rs ih =>
    simp only [List.map_cons, List.cons_append]
    rw [revConsume_cons_row _ _ (rowLine_bar r)
        (rowLine_not_divider r (hrows r (List.mem_cons_self r rs))),
      parseCells_rowLine r (hrows r (List.mem_cons_self r rs)),
      ih (fun x hx => hrows x (List.mem_cons_of_mem r hx))]

theorem revFindTable_cons_skip (ln : String) (rest : List String)
    (h1 : isPrefixL ['|'] (stripL ln.data) = false)
    (h2 : isPrefixL (("## ").data) (stripL ln.data) = false) :
    revFindTable (ln :: rest) = revFindTable rest := by
  show (if isPrefixL ['|'] (stripL ln.data) = true then revConsume rest
    else if isPrefixL (("## ").data) (stripL ln.data) = true then []
    else revFindTable rest) = revFindTable rest
  rw [if_neg (by simp [h1]), if_neg (by simp [h2])]

theorem revFindTable_cons_bar (ln : String) (rest : List String)
    (h : isPrefixL ['|'] (stripL ln.data) = true) :
    revFindTable (ln :: rest) = revConsume rest := by
  show (if isPrefixL ['|'] (stripL ln.data) = true then revConsume rest
    else if isPrefixL (("## ").data) (stripL ln.data) = true then []
    else revFindTable rest) = revConsume rest
  rw [if_pos h]

theorem revTable_gen (rows : List (List String)) (hrows : ∀ r ∈ rows, rowOk r)
    (X : List String) :
    revFindTable (("" : String) :: (tableHeaderLine REV_HEADERS :: (divider_for REV_HEADERS ::
      (rows.map rowLine ++ (("" : String) :: X))))) = rows := by
  rw [revFindTable_cons_skip _ _ (by decide) (by decide),
    revFindTable_cons_bar _ _ (by decide),
    revConsume_cons_div _ _ (by decide) (by decide),
    revConsume_rows rows hrows ("" : String) (by decide) X]

/-! ## Lemmas: consuming the Introduction table -/

theorem stripL_append_replicate_ws (n : Nat) (l : List Char) :
    stripL (l ++ List.replicate n ' ') = stripL l := by
  induction n with
  | zero => rw [List.replicate_zero, List.append_nil]
  | succ m ih =>
    rw [List.replicate_succ', ← List.append_assoc, stripL_append_ws _ (by decide), ih]

theorem pyLjust_no_pipe (k : String) (hk : '|' ∉ k.data) : '|' ∉ (pyLjust k 22).data := by
  rw [show (pyLjust k 22).data = k.data ++ List.replicate (22 - k.data.length) ' ' from rfl]
  intro hm
  rcases List.mem_append.mp hm with h | h
  · exact hk h
  · exact absurd (List.eq_of_mem_replicate h) (by decide)

theorem fieldLine_split (k v : String) (hkbar : '|' ∉ k.data) (hvbar : '|' ∉ v.data) :
    splitChar '|' (fieldLine k v).data =
      [[], ' ' :: ((pyLjust k 22).data ++ [' ']), ' ' :: (v.data ++ [' ']), []] := by
  have hdata : (fieldLine k v).data =
      '|' :: ((' ' :: ((pyLjust k 22).data ++ [' '])) ++
        ('|' :: ((' ' :: (v.data ++ [' '])) ++ ['|']))) := by
    rw [fieldLine_data_shape,
      show ((" | ").data : List Char) = [' ', '|', ' '] from rfl,
      show ((" |").data : List Char) = [' ', '|'] from rfl]
    simp [List.append_assoc]
  rw [hdata, splitChar_cons_self, splitChar_append_sep,
    splitChar_of_not_mem '|' _ (no_pipe_cell _ (pyLjust_no_pipe k hkbar)),
    splitChar_append_sep, splitChar_of_not_mem '|' _ (no_pipe_cell _ hvbar)]
  rfl

theorem mdrow_fieldLine (k v : String) (hkbar : '|' ∉ k.data)
    (hkstrip : stripL k.data = k.data) (hvbar : '|' ∉ v.data)
    (hvstrip : stripL v.data = v.data) :
    MD_ROW_match (pyStrip (fieldLine k v)) = some (k, v) := by
  have hps : pyStrip (fieldLine k v) = fieldLine k v := by
    unfold pyStrip
    rw [fieldLine_strip]
  rw [hps]
  unfold MD_ROW_match
  rw [fieldLine_split k v hkbar hvbar]
  show some (String.mk (stripL (' ' :: ((pyLjust k 22).data ++ [' ']))),
    String.mk (stripL (' ' :: (v.data ++ [' '])))) = some (k, v)
  rw [stripL_space_edges, stripL_space_edges,
    show (pyLjust k 22).data = k.data ++ List.replicate (22 - k.data.length) ' ' from rfl,
    stripL_append_replicate_ws, hkstrip, hvstrip]

theorem fieldLine_bar (k v : String) :
    isPrefixL ['|'] (stripL (fieldLine k v).data) = true := by
  rw [fieldLine_strip, fieldLine_data_shape]
  rfl

theorem introRows_cons_match (ln : String) (rest : List String) (f : List (String × String))
    (k v : String) (hbar : isPrefixL ['|'] (stripL ln.data) = true)
    (hmatch : MD_ROW_match (pyStrip ln) = some (k, v)) :
    introRows (ln :: rest) f
      = introRows rest (if dictMem f k then dictSet f k v else f) := by
  show (if isPrefixL ['|'] (stripL ln.data) = true then
      introRows rest
        (match MD_ROW_match (pyStrip ln) with
         | some fv => if dictMem f fv.fst then dictSet f fv.fst fv.snd else f
         | none => f)
    else f) = introRows rest (if dictMem f k then dictSet f k v else f)
  rw [if_pos hbar, hmatch]

theorem introRows_stop (ln : String) (rest : List String) (f : List (String × String))
    (h : isPrefixL ['|'] (stripL ln.data) = false) :
    introRows (ln :: rest) f = f := by
  show (if isPrefixL ['|'] (stripL ln.data) = true then
      introRows rest
        (match MD_ROW_match (pyStrip ln) with
         | some fv => if dictMem f fv.fst then dictSet f fv.fst fv.snd else f
         | none => f)
    else f) = f
  rw [if_neg (by simp [h])]

theorem introRows_fields (v1 v2 v3 v4 v5 v6 v7 : String)
    (h1 : cellOk v1) (h2 : cellOk v2) (h3 : cellOk v3) (h4 : cellOk v4)
    (h5 : cellOk v5) (h6 : cellOk v6) (h7 : cellOk v7) (X : List String) :
    introRows (fieldLine ("Title") v1 :: fieldLine ("Part Number") v2 ::
      fieldLine ("Notes") v3 :: fieldLine ("Type of Design") v4 ::
      fieldLine ("Level of Novelty") v5 :: fieldLine ("Performance Feedback") v6 ::
      fieldLine ("Verified Performance") v7 :: (("" : String) :: X)) initFields
      = [("Title", v1), ("Part Number", v2), ("Notes", v3), ("Type of Design", v4),
         ("Level of Novelty", v5), ("Performance Feedback", v6),
         ("Verified Performance", v7)] := by
  rw [introRows_cons_match _ _ _ _ _ (fieldLine_bar _ _)
      (mdrow_fieldLine ("Title") v1 (by decide) (by decide) h1.2.2.1 h1.2.2.2),
    introRows_cons_match _ _ _ _ _ (fieldLine_bar _ _)
      (mdrow_fieldLine ("Part Number") v2 (by decide) (by decide) h2.2.2.1 h2.2.2.2),
    introRows_cons_match _ _ _ _ _ (fieldLine_bar _ _)
      (mdrow_fieldLine ("Notes") v3 (by decide) (by decide) h3.2.2.1 h3.2.2.2),
    introRows_cons_match _ _ _ _ _ (fieldLine_bar _ _)
      (mdrow_fieldLine ("Type of Design") v4 (by decide) (by decide) h4.2.2.1 h4.2.2.2),
    introRows_cons_match _ _ _ _ _ (fieldLine_bar _ _)
      (mdrow_fieldLine ("Level of Novelty") v5 (by decide) (by decide) h5.2.2.1 h5.2.2.2),
    introRows_cons_match _ _ _ _ _ (fieldLine_bar _ _)
      (mdrow_fieldLine ("Performance Feedback") v6 (by decide) (by decide)
        h6.2.2.1 h6.2.2.2),
    introRows_cons_match _ _ _ _ _ (fieldLine_bar _ _)
      (mdrow_fieldLine ("Verified Performance") v7 (by decide) (by decide)
        h7.2.2.1 h7.2.2.2),
    introRows_stop _ _ _ (by decide)]
  exact rfl

theorem star_scan_false (l : List Char) :
    isPrefixL ['|', ' ', 'f', 'i', 'e', 'l', 'd'] (lowerL (stripL ('*' :: l))) = false := by
  rw [stripL_cons_not_ws l (by decide), lowerL_cons]
  exact isPrefixL_false_of_ne_head _ _ (by decide)

theorem introScan_cons_skip (ln : String) (rest : List String) (f : List (String × String))
    (h : (isPrefixL (("| field").data) (lowerL (stripL ln.data)) &&
      isInfixL (("| value").data) (lowerL ln.data)) = false) :
    introScanLoop (ln :: rest) f = introScanLoop rest f := by
  show (if (isPrefixL (("| field").data) (lowerL (stripL ln.data)) &&
      isInfixL (("| value").data) (lowerL ln.data)) = true then introRows (rest.drop 1) f
    else introScanLoop rest f) = introScanLoop rest f
  rw [if_neg (by simp [h])]

theorem introScan_cons_hit (ln : String) (rest : List String) (f : List (String × String))
    (h : (isPrefixL (("| field").data) (lowerL (stripL ln.data)) &&
      isInfixL (("| value").data) (lowerL ln.data)) = true) :
    introScanLoop (ln :: rest) f = introRows (rest.drop 1) f := by
  show (if (isPrefixL (("| field").data) (lowerL (stripL ln.data)) &&
      isInfixL (("| value").data) (lowerL ln.data)) = true then introRows (rest.drop 1) f
    else introScanLoop rest f) = introRows (rest.drop 1) f
  rw [if_pos h]

theorem introScan_gen (today : String) (doc : CircuitDoc)
    (v1 v2 v3 v4 v5 v6 v7 : String)
    (hfields : doc.fields = [("Title", v1), ("Part Number", v2), ("Notes", v3),
      ("Type of Design", v4), ("Level of Novelty", v5), ("Performance Feedback", v6),
      ("Verified Performance", v7)])
    (h1 : cellOk v1) (h2 : cellOk v2) (h3 : cellOk v3) (h4 : cellOk v4)
    (h5 : cellOk v5) (h6 : cellOk v6) (h7 : cellOk v7) :
    introScanLoop (generatedLines today doc) initFields = doc.fields := by
  rw [generatedLines_decomp, hfields]
  simp only [List.map_cons, List.map_nil, List.cons_append, List.nil_append]
  rw [introScan_cons_skip _ _ _ (by decide),
    introScan_cons_skip _ _ _ (by decide),
    introScan_cons_skip _ _ _ (by rw [star_scan_false]; exact Bool.false_and _),
    introScan_cons_skip _ _ _ (by decide),
    introScan_cons_skip _ _ _ (by decide),
    introScan_cons_skip _ _ _ (by decide),
    introScan_cons_hit _ _ _ (by decide)]
  simp only [List.drop_succ_cons, List.drop_zero]
  rw [show genFromRH doc = ("" : String) :: (("## Revision History" : String) ::
      (("" : String) :: (tableHeaderLine REV_HEADERS :: (divider_for REV_HEADERS ::
        (doc.revRows.map rowLine ++ genFromVD doc))))) from by
    unfold genFromRH
    simp]
  exact introRows_fields v1 v2 v3 v4 v5 v6 v7 h1 h2 h3 h4 h5 h6 h7 _

/-! ## Lemmas: no generated line contains a newline -/

theorem mem_joinSepL (sep : List Char) (L : List (List Char)) (c : Char)
    (hsep : c ∉ sep) (hL : ∀ x ∈ L, c ∉ x) : c ∉ joinSepL sep L := by
  induction L with
  | nil => simp [joinSepL]
  | cons x xs ih =>
    cases xs with
    | nil =>
      rw [joinSepL_single]
      exact hL x (List.mem_cons_self x [])
    | cons y ys =>
      rw [joinSepL_cons_cons]
      intro hm
      rcases List.mem_append.mp hm with hm1 | hm2
      · rcases List.mem_append.mp hm1 with hmx | hms
        · exact hL x (List.mem_cons_self x (y :: ys)) hmx
        · exact hsep hms
      · exact ih (fun z hz => hL z (List.mem_cons_of_mem x hz)) hm2

theorem fieldLine_no_nl (k v : String) (hk : '\n' ∉ k.data) (hv : '\n' ∉ v.data) :
    '\n' ∉ (fieldLine k v).data := by
  rw [fieldLine_data_shape]
  intro hm
  rcases List.mem_cons.mp hm with h0 | hm1
  · exact absurd h0 (by decide)
  rcases List.mem_append.mp hm1 with hm2 | hm3
  · rcases List.mem_cons.mp hm2 with h0 | hm4
    · exact absurd h0 (by decide)
    rcases List.mem_append.mp hm4 with hm5 | hm6
    · rcases List.mem_append.mp hm5 with hm7 | hm8
      · rw [show (pyLjust k 22).data
            = k.data ++ List.replicate (22 - k.data.length) ' ' from rfl] at hm7
        rcases List.mem_append.mp hm7 with h | h
        · exact hk h
        · exact absurd (List.eq_of_mem_replicate h) (by decide)
      · exact absurd hm8 (by decide)
    · exact hv hm6
  · exact absurd hm3 (by decide)

theorem rowLine_no_nl (r : List String) (hcells : ∀ c ∈ r, '\n' ∉ c.data) :
    '\n' ∉ (rowLine r).data := by
  rw [rowLine_data_shape]
  intro hm
  rcases List.mem_cons.mp hm with h0 | hm1
  · exact absurd h0 (by decide)
  rcases List.mem_append.mp hm1 with hm2 | hm3
  · rcases List.mem_cons.mp hm2 with h0 | hm4
    · exact absurd h0 (by decide)
    · refine mem_joinSepL ((" | ").data) (r.map String.data) '\n' (by decide) ?_ hm4
      intro x hx
      rw [List.mem_map] at hx
      obtain ⟨t, ht, rfl⟩ := hx
      exact hcells t ht
  · exact absurd hm3 (by decide)

theorem bulletLine_no_nl (it : String) (h : '\n' ∉ it.data) :
    '\n' ∉ (bulletLine it).data := by
  rw [bulletLine_data_shape]
  intro hm
  rcases List.mem_cons.mp hm with h0 | hm1
  · exact absurd h0 (by decide)
  rcases List.mem_cons.mp hm1 with h0 | hm2
  · exact absurd h0 (by decide)
  · exact h hm2

theorem bodyLines_no_nl (b : String) : ∀ s ∈ bodyLinesOf b, '\n' ∉ s.data := by
  intro s hs
  unfold bodyLinesOf at hs
  rw [List.mem_map] at hs
  obtain ⟨l, hl, rfl⟩ := hs
  rw [data_mk]
  exact splitChar_pieces_no_sep '\n' b.data l hl

theorem rowOk_no_nl (r : List String) (h : rowOk r) : ∀ c ∈ r, '\n' ∉ c.data := by
  obtain ⟨a, b, c, d, hr, ha, hb, hc, hd, -⟩ := h
  subst hr
  intro x hx
  rcases List.mem_cons.mp hx with rfl | hx
  · exact ha.2.1
  rcases List.mem_cons.mp hx with rfl | hx
  · exact hb.2.1
  rcases List.mem_cons.mp hx with rfl | hx
  · exact hc.2.1
  rcases List.mem_cons.mp hx with rfl | hx
  · exact hd.2.1
  · exact absurd hx (List.not_mem_nil x)

theorem generatedLines_no_nl (today : String) (doc : CircuitDoc) (hWF : WFdoc doc)
    (htoday : '\n' ∉ today.data) :
    ∀ s ∈ generatedLines today doc, '\n' ∉ s.data := by
  obtain ⟨⟨v1, v2, v3, v4, v5, v6, v7, hfields, h1, h2, h3, h4, h5, h6, h7⟩,
    hrows, hitems, hnet, hpl, hcd, hct, hda⟩ := hWF
  intro s hs
  rw [generatedLines] at hs
  simp only [List.mem_append] at hs
  rcases hs with ((((((((((((((hA | hB) | hC) | hD) | hE) | hF) | hG) | hH) | hJ) | hK)
    | hL) | hM) | hN) | hO) | hP) | hQ
  · simp only [List.mem_cons, List.not_mem_nil, or_false] at hA
    rcases hA with rfl | rfl | rfl | rfl | rfl | rfl | rfl | rfl
    · decide
    · decide
    · rw [data_mk]
      intro hm
      rcases List.mem_append.mp hm with h | h
      · exact absurd h (by decide)
      · exact htoday h
    · decide
    · decide
    · decide
    · decide
    · decide
  · rw [hfields] at hB
    simp only [List.map_cons, List.map_nil, List.mem_cons, List.not_mem_nil, or_false] at hB
    rcases hB with rfl | rfl | rfl | rfl | rfl | rfl | rfl
    · exact fieldLine_no_nl _ v1 (by decide) h1.2.1
    · exact fieldLine_no_nl _ v2 (by decide) h2.2.1
    · exact fieldLine_no_nl _ v3 (by decide) h3.2.1
    · exact fieldLine_no_nl _ v4 (by decide) h4.2.1
    · exact fieldLine_no_nl _ v5 (by decide) h5.2.1
    · exact fieldLine_no_nl _ v6 (by decide) h6.2.1
    · exact fieldLine_no_nl _ v7 (by decide) h7.2.1
  · simp only [List.mem_cons, List.not_mem_nil, or_false] at hC
    rcases hC with rfl | rfl | rfl | rfl | rfl
    · decide
    · decide
    · decide
    · decide
    · decide
  · rw [List.mem_map] at hD
    obtain ⟨r, hr, rfl⟩ := hD
    exact rowLine_no_nl r (rowOk_no_nl r (hrows r hr))
  · simp only [List.mem_cons, List.not_mem_nil, or_false] at hE
    rcases hE with rfl | rfl | rfl
    · decide
    · decide
    · decide
  · unfold variantSegment at hF
    by_cases he : doc.variantItems = []
    · rw [if_pos he] at hF
      simp only [List.mem_singleton] at hF
      subst hF
      decide
    · rw [if_neg he] at hF
      rw [List.mem_map] at hF
      obtain ⟨it, hit, rfl⟩ := hF
      exact bulletLine_no_nl it (hitems it hit).2.1
  · simp only [List.mem_cons, List.not_mem_nil, or_false] at hG
    rcases hG with rfl | rfl | rfl
    · decide
    · decide
    · decide
  · exact bodyLines_no_nl doc.netlist s hH
  · simp only [List.mem_cons, List.not_mem_nil, or_false] at hJ
    rcases hJ with rfl | rfl | rfl
    · decide
    · decide
    · decide
  · exact bodyLines_no_nl doc.partlistText s hK
  · simp only [List.mem_cons, List.not_mem_nil, or_false] at hL
    rcases hL with rfl | rfl | rfl
    · decide
    · decide
    · decide
  · exact bodyLines_no_nl doc.circuitDescription s hM
  · simp only [List.mem_cons, List.not_mem_nil, or_false] at hN
    rcases hN with rfl | rfl | rfl
    · decide
    · decide
    · decide
  · exact bodyLines_no_nl doc.circuitTheory s hO
  · simp only [List.mem_cons, List.not_mem_nil, or_false] at hP
    rcases hP with rfl | rfl | rfl
    · decide
    · decide
    · decide
  · exact bodyLines_no_nl doc.designAnalysis s hQ

/-! ## The round trip: `parse_markdown (build_markdown today doc) = doc` -/

theorem parse_markdown_lines (text : String) :
    parse_markdown text =
      ⟨introScanLoop (pySplitlines text) initFields,
       (match find_section (pySplitlines text) ("Revision History") with
        | some tail => revFindTable tail
        | none => []),
       (match find_section (pySplitlines text) ("Variant Details") with
        | some tail => parse_bulleted_list tail
        | none => []),
       (match find_section (pySplitlines text) ("Netlist") with
        | some tail => read_section_text tail
        | none => ""),
       (match find_section (pySplitlines text) ("Partlist") with
        | some tail =>
          if stripL (read_section_text tail).data = [] then partlistSkeleton
          else read_section_text tail
        | none => ""),
       (match find_section (pySplitlines text) SECTION_CD with
        | some tail => read_section_text tail
        | none => ""),
       (match find_section (pySplitlines text) SECTION_CT with
        | some tail => read_section_text tail
        | none => ""),
       (match find_section (pySplitlines text) SECTION_DA with
        | some tail => read_section_text tail
        | none => "")⟩ := rfl

set_option maxHeartbeats 3200000 in
/-- `parse_markdown (build_markdown(...))` recovers every well-formed
document exactly (the amended round-trip, under the `WFdoc` restriction
to documents whose blocks are non-empty, trimmed, header-free text and
whose cells are single-line, bar-free and trimmed). -/
theorem parse_build (today : String) (doc : CircuitDoc) (hWF : WFdoc doc)
    (htoday : '\n' ∉ today.data) :
    parse_markdown (build_markdown today doc) = doc := by
  obtain ⟨v1, v2, v3, v4, v5, v6, v7, hfields, h1, h2, h3, h4, h5, h6, h7⟩ := hWF.1
  have hrows := hWF.2.1
  have hitems := hWF.2.2.1
  have hnet := hWF.2.2.2.1
  have hpl := hWF.2.2.2.2.1
  have hcd := hWF.2.2.2.2.2.1
  have hct := hWF.2.2.2.2.2.2.1
  have hda := hWF.2.2.2.2.2.2.2
  have hlines : pySplitlines (build_markdown today doc) = generatedLines today doc := by
    rw [build_markdown_eq_joinLines today doc hWF]
    exact pySplitlines_joinLines _ (by rw [generatedLines_decomp]; simp)
      (generatedLines_no_nl today doc hWF htoday)
  rw [parse_markdown_lines, hlines,
    show doc = ⟨doc.fields, doc.revRows, doc.variantItems, doc.netlist,
      doc.partlistText, doc.circuitDescription, doc.circuitTheory, doc.designAnalysis⟩
      from rfl, CircuitDoc.mk.injEq]
  refine ⟨?_, ?_, ?_, ?_, ?_, ?_, ?_, ?_⟩
  · exact introScan_gen today doc v1 v2 v3 v4 v5 v6 v7 hfields h1 h2 h3 h4 h5 h6 h7
  · rw [gen_find_rev today doc]
    show revFindTable (["", tableHeaderLine REV_HEADERS, divider_for REV_HEADERS] ++
      doc.revRows.map rowLine ++ genFromVD doc) = doc.revRows
    rw [show (["", tableHeaderLine REV_HEADERS, divider_for REV_HEADERS] : List String) ++
        doc.revRows.map rowLine ++ genFromVD doc
      = ("" : String) :: (tableHeaderLine REV_HEADERS :: (divider_for REV_HEADERS ::
        (doc.revRows.map rowLine ++ (("" : String) :: (("## Variant Details" : String) ::
          (("" : String) :: (variantSegment doc.variantItems ++ genFromNL doc))))))) from by
      unfold genFromVD
      simp]
    exact revTable_gen doc.revRows hrows _
  · rw [gen_find_vd today doc]
    show parse_bulleted_list ([""] ++ variantSegment doc.variantItems ++ genFromNL doc)
      = doc.variantItems
    rw [show ([("" : String)] ++ variantSegment doc.variantItems ++ genFromNL doc :
        List String)
      = ("" : String) :: (variantSegment doc.variantItems ++ (("" : String) ::
        (("## Netlist" : String) :: (("" : String) ::
          (bodyLinesOf doc.netlist ++ genFromPL doc))))) from by
      unfold genFromNL
      simp]
    exact parse_bulleted_gen doc.variantItems hitems ("## Netlist") (by decide) _
  · rw [gen_find_nl today doc hitems]
    show read_section_text ([""] ++ bodyLinesOf doc.netlist ++ genFromPL doc) = doc.netlist
    rw [show ([("" : String)] ++ bodyLinesOf doc.netlist ++ genFromPL doc : List String)
      = ("" : String) :: (bodyLinesOf doc.netlist ++ (("" : String) ::
        (("## Partlist" : String) :: (("" : String) ::
          (bodyLinesOf doc.partlistText ++ genFromCD doc))))) from by
      unfold genFromPL
      simp]
    exact read_section_gen doc.netlist hnet ("## Partlist") (by decide) _
  · rw [gen_find_pl today doc hitems hnet]
    show (if stripL (read_section_text ([""] ++ bodyLinesOf doc.partlistText ++
          genFromCD doc)).data = [] then partlistSkeleton
      else read_section_text ([""] ++ bodyLinesOf doc.partlistText ++ genFromCD doc))
      = doc.partlistText
    rw [show ([("" : String)] ++ bodyLinesOf doc.partlistText ++ genFromCD doc : List String)
      = ("" : String) :: (bodyLinesOf doc.partlistText ++ (("" : String) ::
        (("## Circuit Description" : String) :: (("" : String) ::
          (bodyLinesOf doc.circuitDescription ++ genFromCT doc))))) from by
      unfold genFromCD
      simp]
    rw [read_section_gen doc.partlistText hpl ("## Circuit Description") (by decide) _]
    rw [if_neg (by rw [hpl.2.1]; exact hpl.2.2.1)]
  · rw [gen_find_cd today doc hitems hnet hpl]
    show read_section_text ([""] ++ bodyLinesOf doc.circuitDescription ++ genFromCT doc)
      = doc.circuitDescription
    rw [show ([("" : String)] ++ bodyLinesOf doc.circuitDescription ++ genFromCT doc :
        List String)
      = ("" : String) :: (bodyLinesOf doc.circuitDescription ++ (("" : String) ::
        (("## Circuit Theory" : String) :: (("" : String) ::
          (bodyLinesOf doc.circuitTheory ++ genFromDA doc))))) from by
      unfold genFromCT
      simp]
    exact read_section_gen doc.circuitDescription hcd ("## Circuit Theory") (by decide) _
  · rw [gen_find_ct today doc hitems hnet hpl hcd]
    show read_section_text ([""] ++ bodyLinesOf doc.circuitTheory ++ genFromDA doc)
      = doc.circuitTheory
    rw [show ([("" : String)] ++ bodyLinesOf doc.circuitTheory ++ genFromDA doc : List String)
      = ("" : String) :: (bodyLinesOf doc.circuitTheory ++ (("" : String) ::
        (("## Design Analysis" : String) :: (("" : String) ::
          bodyLinesOf doc.designAnalysis)))) from by
      unfold genFromDA
      simp]
    exact read_section_gen doc.circuitTheory hct ("## Design Analysis") (by decide) _
  · rw [gen_find_da today doc hitems hnet hpl hcd hct]
    show read_section_text ([""] ++ bodyLinesOf doc.designAnalysis) = doc.designAnalysis
    exact read_section_gen_last doc.designAnalysis hda

/-! ## Lemmas: the push countdown -/

theorem schedule_mk (delay : Nat) (rem : Option Nat) (c : Nat) :
    schedule_git_push delay ⟨true, false, rem, c⟩ = ⟨true, false, some (max 1 delay), c⟩ := by
  simp [schedule_git_push]

theorem tick_run (k : Nat) (r c : Nat) (hk : k ≤ r) :
    (tick_push_countdown)^[k] ⟨true, false, some r, c⟩ = ⟨true, false, some (r - k), c⟩ := by
  induction k generalizing r with
  | zero => simp
  | succ m ih =>
    rw [Function.iterate_succ_apply]
    have h1 : tick_push_countdown ⟨true, false, some r, c⟩ = ⟨true, false, some (r - 1), c⟩ := by
      have hr : r ≠ 0 := by omega
      simp [tick_push_countdown, hr]
    rw [h1, ih (r - 1) (by omega)]
    have : r - 1 - m = r - (m + 1) := by omega
    rw [this]

theorem tick_fire (c : Nat) :
    tick_push_countdown ⟨true, false, some 0, c⟩ = ⟨true, false, none, c + 1⟩ := by
  simp [tick_push_countdown]

/-! ## Lemmas: the metadata backfill -/

theorem find?_append_some {α : Type} (p : α → Bool) (a b : List α) (x : α)
    (h : a.find? p = some x) : (a ++ b).find? p = some x := by
  induction a with
  | nil => simp [List.find?] at h
  | cons y ys ih =>
    rw [List.cons_append]
    by_cases hy : p y
    · rw [List.find?_cons_of_pos _ hy] at h
      rw [List.find?_cons_of_pos _ hy]
      exact h
    · rw [List.find?_cons_of_neg _ hy] at h
      rw [List.find?_cons_of_neg _ hy]
      exact ih h

theorem find?_append_none {α : Type} (p : α → Bool) (a b : List α)
    (h : a.find? p = none) : (a ++ b).find? p = b.find? p := by
  induction a with
  | nil => rfl
  | cons y ys ih =>
    by_cases hy : p y
    · rw [List.find?_cons_of_pos _ hy] at h
      exact absurd h (by simp)
    · rw [List.find?_cons_of_neg _ hy] at h
      rw [List.cons_append, List.find?_cons_of_neg _ hy]
      exact ih h

theorem lookupMeta_append_left (a b : List (String × JVal)) (k : String) (v : JVal)
    (h : lookupMeta a k = some v) : lookupMeta (a ++ b) k = some v := by
  unfold lookupMeta at h ⊢
  cases hf : List.find? (fun kv => kv.fst = k) a with
  | none =>
    rw [hf] at h
    exact absurd h (by simp)
  | some kv =>
    rw [hf] at h
    rw [find?_append_some _ a b kv hf]
    exact h

theorem backfillMeta_cons (d : List (String × JVal)) (kv : String × JVal)
    (rest : List (String × JVal)) :
    backfillMeta d (kv :: rest)
      = backfillMeta
          (if ((d.find? (fun p => p.fst = kv.fst)).isSome) then d else d ++ [kv]) rest := by
  unfold backfillMeta
  rw [List.foldl_cons]

theorem backfill_keeps_some (d defaults : List (String × JVal)) (k : String) (v : JVal)
    (h : lookupMeta d k = some v) : lookupMeta (backfillMeta d defaults) k = some v := by
  induction defaults generalizing d with
  | nil => exact h
  | cons kv rest ih =>
    rw [backfillMeta_cons]
    by_cases hf : ((d.find? (fun p => p.fst = kv.fst)).isSome)
    · rw [if_pos hf]
      exact ih d h
    · rw [if_neg hf]
      exact ih _ (lookupMeta_append_left d [kv] k v h)

theorem backfill_mem_some (d defaults : List (String × JVal)) (k : String)
    (hk : k ∈ defaults.map Prod.fst) :
    (lookupMeta (backfillMeta d defaults) k).isSome := by
  induction defaults generalizing d with
  | nil => simp at hk
  | cons kv rest ih =>
    rw [backfillMeta_cons]
    rw [List.map_cons, List.mem_cons] at hk
    rcases hk with rfl | hk
    · by_cases hf : ((d.find? (fun p => p.fst = kv.fst)).isSome)
      · rw [if_pos hf]
        have hs : ∃ v, lookupMeta d kv.fst = some v := by
          unfold lookupMeta
          cases hfd : d.find? (fun p => p.fst = kv.fst) with
          | none =>
            rw [hfd] at hf
            simp at hf
          | some x => exact ⟨x.snd, rfl⟩
        obtain ⟨v, hv⟩ := hs
        rw [backfill_keeps_some d rest kv.fst v hv]
        rfl
      · rw [if_neg hf]
        have hv : lookupMeta (d ++ [kv]) kv.fst = some kv.snd := by
          unfold lookupMeta
          rw [find?_append_none _ d [kv] (by
            cases hfd : d.find? (fun p => p.fst = kv.fst) with
            | none => rfl
            | some x =>
              rw [hfd] at hf
              simp at hf)]
          rw [List.find?_cons_of_pos _ (by simp)]
          rfl
        rw [backfill_keeps_some _ rest kv.fst kv.snd hv]
        rfl
    · by_cases hf : ((d.find? (fun p => p.fst = kv.fst)).isSome)
      · rw [if_pos hf]
        exact ih d hk
      · rw [if_neg hf]
        exact ih _ hk

/-! ## The claims -/

set_option maxHeartbeats 3200000 in
set_option maxRecDepth 100000 in
/-- Claim C1 (corrected), counterexample to the claim as stated: for the
all-empty document the round trip is not the identity — the empty Netlist
block is rendered as the placeholder `"(Click or type to add content…)"`
and parses back as that literal text, not as the empty string. -/
theorem claim_C1_counterexample :
    parse_markdown (build_markdown ("2026-01-01") docZero) ≠ docZero ∧
    (parse_markdown (build_markdown ("2026-01-01") docZero)).netlist
      = ("(Click or type to add content…)") := by
  exact ⟨by decide, by decide⟩

/-- Claim C1 (corrected): `parse_markdown (build_markdown today doc) = doc`
holds not for every document but for the well-formed ones (`WFdoc`): the
seven fixed fields with tame, single-line, bar-free, trimmed values;
`rowOk` revision rows; `itemOk` variant items; and non-empty, trimmed,
header-free free-text blocks.  Empty free-text blocks come back as the
editor placeholder, not as empty strings. -/
theorem claim_C1_roundtrip_wf (today : String) (doc : CircuitDoc) (hWF : WFdoc doc)
    (htoday : '\n' ∉ today.data) :
    parse_markdown (build_markdown today doc) = doc :=
  parse_build today doc hWF htoday

/-- Witness for C1: a concrete well-formed document round-trips. -/
theorem claim_C1_witness :
    WFdoc (⟨[("Title", "Amp"), ("Part Number", "PN-1"), ("Notes", "n"),
        ("Type of Design", "t"), ("Level of Novelty", "l"), ("Performance Feedback", "p"),
        ("Verified Performance", "v")],
      [[("A"), ("2026-01-01"), ("init"), ("me")]], [("V1")],
      "NET", "PL", "CDT", "CTT", "DAT"⟩ : CircuitDoc) ∧
    parse_markdown (build_markdown ("2026-02-03")
        ⟨[("Title", "Amp"), ("Part Number", "PN-1"), ("Notes", "n"),
          ("Type of Design", "t"), ("Level of Novelty", "l"), ("Performance Feedback", "p"),
          ("Verified Performance", "v")],
        [[("A"), ("2026-01-01"), ("init"), ("me")]], [("V1")],
        "NET", "PL", "CDT", "CTT", "DAT"⟩)
      = ⟨[("Title", "Amp"), ("Part Number", "PN-1"), ("Notes", "n"),
          ("Type of Design", "t"), ("Level of Novelty", "l"), ("Performance Feedback", "p"),
          ("Verified Performance", "v")],
        [[("A"), ("2026-01-01"), ("init"), ("me")]], [("V1")],
        "NET", "PL", "CDT", "CTT", "DAT"⟩ := by
  have hWF : WFdoc (⟨[("Title", "Amp"), ("Part Number", "PN-1"), ("Notes", "n"),
      ("Type of Design", "t"), ("Level of Novelty", "l"), ("Performance Feedback", "p"),
      ("Verified Performance", "v")],
    [[("A"), ("2026-01-01"), ("init"), ("me")]], [("V1")],
    "NET", "PL", "CDT", "CTT", "DAT"⟩ : CircuitDoc) := by
    have hcell : ∀ v : String, tameS v → '\n' ∉ v.data → '|' ∉ v.data →
        stripL v.data = v.data → cellOk v := fun v a b c d => ⟨a, b, c, d⟩
    refine ⟨⟨"Amp", "PN-1", "n", "t", "l", "p", "v", rfl,
      hcell _ (by unfold tameS; decide) (by decide) (by decide) (by decide),
      hcell _ (by unfold tameS; decide) (by decide) (by decide) (by decide),
      hcell _ (by unfold tameS; decide) (by decide) (by decide) (by decide),
      hcell _ (by unfold tameS; decide) (by decide) (by decide) (by decide),
      hcell _ (by unfold tameS; decide) (by decide) (by decide) (by decide),
      hcell _ (by unfold tameS; decide) (by decide) (by decide) (by decide),
      hcell _ (by unfold tameS; decide) (by decide) (by decide) (by decide)⟩, ?_, ?_,
      ⟨by unfold tameS; decide, by decide, by decide, by decide⟩,
      ⟨by unfold tameS; decide, by decide, by decide, by decide⟩,
      ⟨by unfold tameS; decide, by decide, by decide, by decide⟩,
      ⟨by unfold tameS; decide, by decide, by decide, by decide⟩,
      ⟨by unfold tameS; decide, by decide, by decide, by decide⟩⟩
    · intro r hr
      rcases List.mem_cons.mp hr with rfl | hr
      · exact ⟨"A", "2026-01-01", "init", "me", rfl,
          hcell _ (by unfold tameS; decide) (by decide) (by decide) (by decide),
          hcell _ (by unfold tameS; decide) (by decide) (by decide) (by decide),
          hcell _ (by unfold tameS; decide) (by decide) (by decide) (by decide),
          hcell _ (by unfold tameS; decide) (by decide) (by decide) (by decide),
          by decide⟩
      · exact absurd hr (List.not_mem_nil r)
    · intro it hit
      rcases List.mem_cons.mp hit with rfl | hit
      · exact ⟨by unfold tameS; decide, by decide, by decide, by decide, by decide⟩
      · exact absurd hit (List.not_mem_nil it)
  exact ⟨hWF, claim_C1_roundtrip_wf ("2026-02-03") _ hWF (by decide)⟩

/-- Claim C2 (code bug): when the pre-save pull fails, the rebase abort is
attempted, the conflict notice is shown, the local write still happens and
dirty is cleared, and the two document paths indeed issue no commit — but
the folder-metadata save still stages and commits its file: its commit
block ignores the pull's "do not commit" verdict. -/
theorem claim_C2_pull_conflict_folder_commit (metaPath msg : String) (d0 : Bool)
    (co si : Bool) :
    (save_from_form (SaveTarget.folderMeta metaPath msg)
        ⟨true, true, false, true, false, co, si⟩ d0).conflictNotice = true ∧
    GitCmd.rebaseAbort ∈ (save_from_form (SaveTarget.folderMeta metaPath msg)
        ⟨true, true, false, true, false, co, si⟩ d0).cmds ∧
    (save_from_form (SaveTarget.folderMeta metaPath msg)
        ⟨true, true, false, true, false, co, si⟩ d0).wrote = true ∧
    (save_from_form (SaveTarget.folderMeta metaPath msg)
        ⟨true, true, false, true, false, co, si⟩ d0).dirty = false ∧
    GitCmd.commit msg (some metaPath) ∈ (save_from_form (SaveTarget.folderMeta metaPath msg)
        ⟨true, true, false, true, false, co, si⟩ d0).cmds ∧
    (∀ p m2 q, GitCmd.commit m2 q ∉ (save_from_form (SaveTarget.docRaw p m2)
        ⟨true, true, false, true, false, co, si⟩ d0).cmds) ∧
    (∀ p m2 q, GitCmd.commit m2 q ∉ (save_from_form (SaveTarget.docStructured p m2)
        ⟨true, true, false, true, false, co, si⟩ d0).cmds) := by
  cases co <;>
    simp [save_from_form, safe_pull_before_save, commit_single_path]

/-- Witness for C2 at a concrete folder save. -/
theorem claim_C2_witness :
    (save_from_form (SaveTarget.folderMeta ("f/meta.json") ("m"))
        ⟨true, true, false, true, false, true, false⟩ true).conflictNotice = true ∧
    GitCmd.rebaseAbort ∈ (save_from_form (SaveTarget.folderMeta ("f/meta.json") ("m"))
        ⟨true, true, false, true, false, true, false⟩ true).cmds ∧
    (save_from_form (SaveTarget.folderMeta ("f/meta.json") ("m"))
        ⟨true, true, false, true, false, true, false⟩ true).wrote = true ∧
    (save_from_form (SaveTarget.folderMeta ("f/meta.json") ("m"))
        ⟨true, true, false, true, false, true, false⟩ true).dirty = false ∧
    GitCmd.commit ("m") (some ("f/meta.json")) ∈
      (save_from_form (SaveTarget.folderMeta ("f/meta.json") ("m"))
        ⟨true, true, false, true, false, true, false⟩ true).cmds ∧
    (∀ p m2 q, GitCmd.commit m2 q ∉ (save_from_form (SaveTarget.docRaw p m2)
        ⟨true, true, false, true, false, true, false⟩ true).cmds) ∧
    (∀ p m2 q, GitCmd.commit m2 q ∉ (save_from_form (SaveTarget.docStructured p m2)
        ⟨true, true, false, true, false, true, false⟩ true).cmds) :=
  claim_C2_pull_conflict_folder_commit ("f/meta.json") ("m") true true false

/-- Claim C3 (code bug): with git disabled the document saves issue no
repository command and the push countdown is never armed — but the
folder-metadata save still runs its add / staged-diff / commit block, so
"a save never invokes any repository driver method" is false for folder
metadata. -/
theorem claim_C3_disabled_folder_commands (metaPath msg : String) (d0 : Bool)
    (co si : Bool) :
    GitCmd.add metaPath ∈ (save_from_form (SaveTarget.folderMeta metaPath msg)
        ⟨false, true, true, true, false, co, si⟩ d0).cmds ∧
    GitCmd.commit msg (some metaPath) ∈ (save_from_form (SaveTarget.folderMeta metaPath msg)
        ⟨false, true, true, true, false, co, si⟩ d0).cmds ∧
    (save_from_form (SaveTarget.folderMeta metaPath msg)
        ⟨false, true, true, true, false, co, si⟩ d0).pushArmed = false ∧
    (∀ p m2, (save_from_form (SaveTarget.docRaw p m2)
        ⟨false, true, true, true, false, co, si⟩ d0).cmds = []) ∧
    (∀ p m2, (save_from_form (SaveTarget.docStructured p m2)
        ⟨false, true, true, true, false, co, si⟩ d0).cmds = []) ∧
    (∀ p m2, (save_from_form (SaveTarget.docRaw p m2)
        ⟨false, true, true, true, false, co, si⟩ d0).wrote = true) ∧
    (∀ delay s, s.gitEnabled = false → (schedule_git_push delay s).remaining = none) := by
  refine ⟨?_, ?_, ?_, ?_, ?_, ?_, ?_⟩
  · cases co <;> simp [save_from_form, safe_pull_before_save, commit_single_path]
  · cases co <;> simp [save_from_form, safe_pull_before_save, commit_single_path]
  · cases co <;> simp [save_from_form, safe_pull_before_save, commit_single_path]
  · intro p m2
    simp [save_from_form, safe_pull_before_save]
  · intro p m2
    simp [save_from_form, safe_pull_before_save]
  · intro p m2
    simp [save_from_form, safe_pull_before_save]
  · intro delay s hs
    simp [schedule_git_push, hs]

/-- Witness for C3 at a concrete folder save. -/
theorem claim_C3_witness :
    GitCmd.add ("f/meta.json") ∈ (save_from_form
        (SaveTarget.folderMeta ("f/meta.json") ("m"))
        ⟨false, true, true, true, false, true, false⟩ false).cmds ∧
    GitCmd.commit ("m") (some ("f/meta.json")) ∈ (save_from_form
        (SaveTarget.folderMeta ("f/meta.json") ("m"))
        ⟨false, true, true, true, false, true, false⟩ false).cmds ∧
    (save_from_form (SaveTarget.folderMeta ("f/meta.json") ("m"))
        ⟨false, true, true, true, false, true, false⟩ false).pushArmed = false ∧
    (∀ p m2, (save_from_form (SaveTarget.docRaw p m2)
        ⟨false, true, true, true, false, true, false⟩ false).cmds = []) ∧
    (∀ p m2, (save_from_form (SaveTarget.docStructured p m2)
        ⟨false, true, true, true, false, true, false⟩ false).cmds = []) ∧
    (∀ p m2, (save_from_form (SaveTarget.docRaw p m2)
        ⟨false, true, true, true, false, true, false⟩ false).wrote = true) ∧
    (∀ delay s, s.gitEnabled = false → (schedule_git_push delay s).remaining = none) :=
  claim_C3_disabled_folder_commands ("f/meta.json") ("m") false true false

/-- Claim C4 (corrected), counterexample to the claim as stated: a
successful structured document save stages with `add -A` (a blanket stage
of the whole working copy), not the one saved file. -/
theorem claim_C4_counterexample :
    GitCmd.addAll ∈ (save_from_form (SaveTarget.docStructured ("f.md") ("m"))
      ⟨true, true, true, true, false, true, false⟩ false).cmds ∧
    GitCmd.add ("f.md") ∉ (save_from_form (SaveTarget.docStructured ("f.md") ("m"))
      ⟨true, true, true, true, false, true, false⟩ false).cmds := by
  exact ⟨by decide, by decide⟩

/-- Claim C4 (corrected): only the raw/Review document save and the
folder-metadata save stage exactly the one saved path; the structured
document save goes through `git_commit_all`, which stages everything
(`add -A`) and commits without a path. -/
theorem claim_C4_staging_scope (path msg : String) (d0 : Bool) (co si : Bool) :
    (GitCmd.addAll ∉ (save_from_form (SaveTarget.docRaw path msg)
        ⟨true, true, true, true, false, co, si⟩ d0).cmds ∧
      GitCmd.add path ∈ (save_from_form (SaveTarget.docRaw path msg)
        ⟨true, true, true, true, false, co, si⟩ d0).cmds ∧
      (∀ q, GitCmd.add q ∈ (save_from_form (SaveTarget.docRaw path msg)
        ⟨true, true, true, true, false, co, si⟩ d0).cmds → q = path)) ∧
    (GitCmd.addAll ∈ (save_from_form (SaveTarget.docStructured path msg)
        ⟨true, true, true, true, false, co, si⟩ d0).cmds ∧
      (∀ q, GitCmd.add q ∉ (save_from_form (SaveTarget.docStructured path msg)
        ⟨true, true, true, true, false, co, si⟩ d0).cmds)) ∧
    (GitCmd.addAll ∉ (save_from_form (SaveTarget.folderMeta path msg)
        ⟨true, true, true, true, false, co, si⟩ d0).cmds ∧
      (∀ q, GitCmd.add q ∈ (save_from_form (SaveTarget.folderMeta path msg)
        ⟨true, true, true, true, false, co, si⟩ d0).cmds → q = path)) := by
  cases co <;>
    simp [save_from_form, safe_pull_before_save, commit_single_path, git_commit_all]

/-- Witness for C4 at a concrete save. -/
theorem claim_C4_witness :
    (GitCmd.addAll ∉ (save_from_form (SaveTarget.docRaw ("f.md") ("m"))
        ⟨true, true, true, true, false, true, false⟩ false).cmds ∧
      GitCmd.add ("f.md") ∈ (save_from_form (SaveTarget.docRaw ("f.md") ("m"))
        ⟨true, true, true, true, false, true, false⟩ false).cmds ∧
      (∀ q, GitCmd.add q ∈ (save_from_form (SaveTarget.docRaw ("f.md") ("m"))
        ⟨true, true, true, true, false, true, false⟩ false).cmds → q = ("f.md"))) ∧
    (GitCmd.addAll ∈ (save_from_form (SaveTarget.docStructured ("f.md") ("m"))
        ⟨true, true, true, true, false, true, false⟩ false).cmds ∧
      (∀ q, GitCmd.add q ∉ (save_from_form (SaveTarget.docStructured ("f.md") ("m"))
        ⟨true, true, true, true, false, true, false⟩ false).cmds)) ∧
    (GitCmd.addAll ∉ (save_from_form (SaveTarget.folderMeta ("f.md") ("m"))
        ⟨true, true, true, true, false, true, false⟩ false).cmds ∧
      (∀ q, GitCmd.add q ∈ (save_from_form (SaveTarget.folderMeta ("f.md") ("m"))
        ⟨true, true, true, true, false, true, false⟩ false).cmds → q = ("f.md"))) :=
  claim_C4_staging_scope ("f.md") ("m") false true false

/-- Claim C5 (confirmed): every `_schedule_git_push` resets the single
shared countdown to the full `max 1 delay`; after a second schedule `k`
ticks later (`k` below the delay), no push has happened yet at `max 1
delay` ticks past the second schedule and exactly one push has happened at
`max 1 delay + 1` ticks — the debounced push fires once, timed from the
second save. -/
theorem claim_C5_push_debounce (delay k : Nat) (rem0 : Option Nat) (c : Nat)
    (hk : k < max 1 delay) :
    ((tick_push_countdown)^[k] (schedule_git_push delay ⟨true, false, rem0, c⟩)).pushCount
      = c ∧
    ((tick_push_countdown)^[max 1 delay]
      (schedule_git_push delay
        ((tick_push_countdown)^[k]
          (schedule_git_push delay ⟨true, false, rem0, c⟩)))).pushCount = c ∧
    ((tick_push_countdown)^[max 1 delay + 1]
      (schedule_git_push delay
        ((tick_push_countdown)^[k]
          (schedule_git_push delay ⟨true, false, rem0, c⟩)))).pushCount = c + 1 := by
  have h1 : (tick_push_countdown)^[k] (schedule_git_push delay ⟨true, false, rem0, c⟩)
      = ⟨true, false, some (max 1 delay - k), c⟩ := by
    rw [schedule_mk, tick_run k (max 1 delay) c (Nat.le_of_lt hk)]
  have h2 : schedule_git_push delay (⟨true, false, some (max 1 delay - k), c⟩ : PushState)
      = ⟨true, false, some (max 1 delay), c⟩ := schedule_mk delay _ c
  refine ⟨?_, ?_, ?_⟩
  · rw [h1]
  · rw [h1, h2, tick_run (max 1 delay) (max 1 delay) c (Nat.le_refl _)]
  · rw [h1, h2, Function.iterate_succ_apply',
      tick_run (max 1 delay) (max 1 delay) c (Nat.le_refl _), Nat.sub_self, tick_fire]

/-- Witness for C5 with a 60-unit delay and a second save 5 ticks after
the first. -/
theorem claim_C5_witness :
    ((tick_push_countdown)^[5] (schedule_git_push 60 ⟨true, false, none, 0⟩)).pushCount
      = 0 ∧
    ((tick_push_countdown)^[max 1 60]
      (schedule_git_push 60
        ((tick_push_countdown)^[5]
          (schedule_git_push 60 ⟨true, false, none, 0⟩)))).pushCount = 0 ∧
    ((tick_push_countdown)^[max 1 60 + 1]
      (schedule_git_push 60
        ((tick_push_countdown)^[5]
          (schedule_git_push 60 ⟨true, false, none, 0⟩)))).pushCount = 0 + 1 :=
  claim_C5_push_debounce 60 5 none 0 (by decide)

/-- Claim C6 (confirmed): while a load runs with suppression on, every
edit event is a no-op; the load leaves the state Clean with suppression
off; and the first edit after the load marks it Dirty. -/
theorem claim_C6_dirty_suppression (interval edits : Nat) (s : DirtyState) :
    ((mark_dirty interval)^[edits] { s with suppress := true } = { s with suppress := true }) ∧
    (load_populate interval edits s).dirty = false ∧
    (load_populate interval edits s).suppress = false ∧
    (mark_dirty interval (load_populate interval edits s)).dirty = true := by
  have hfix : mark_dirty interval { s with suppress := true } = { s with suppress := true } := by
    simp [mark_dirty]
  exact ⟨Function.iterate_fixed hfix edits, rfl, rfl, rfl⟩

/-- Claim C7 (confirmed): a failed disk write reports an error, reports no
"saved" info, leaves the dirty flag untouched and commits nothing — on the
raw document path, the structured path and the folder-metadata path. -/
theorem claim_C7_write_failure (g o p sd co si : Bool) (d0 : Bool) (path msg : String) :
    ((save_from_form (SaveTarget.docRaw path msg)
        ⟨g, o, p, false, sd, co, si⟩ d0).errorShown = true ∧
      (save_from_form (SaveTarget.docRaw path msg)
        ⟨g, o, p, false, sd, co, si⟩ d0).dirty = d0 ∧
      (save_from_form (SaveTarget.docRaw path msg)
        ⟨g, o, p, false, sd, co, si⟩ d0).wrote = false ∧
      (∀ m2 q, GitCmd.commit m2 q ∉ (save_from_form (SaveTarget.docRaw path msg)
        ⟨g, o, p, false, sd, co, si⟩ d0).cmds)) ∧
    ((save_from_form (SaveTarget.docStructured path msg)
        ⟨g, o, p, false, sd, co, si⟩ d0).errorShown = true ∧
      (save_from_form (SaveTarget.docStructured path msg)
        ⟨g, o, p, false, sd, co, si⟩ d0).dirty = d0 ∧
      (save_from_form (SaveTarget.docStructured path msg)
        ⟨g, o, p, false, sd, co, si⟩ d0).wrote = false ∧
      (∀ m2 q, GitCmd.commit m2 q ∉ (save_from_form (SaveTarget.docStructured path msg)
        ⟨g, o, p, false, sd, co, si⟩ d0).cmds)) ∧
    ((save_from_form (SaveTarget.folderMeta path msg)
        ⟨g, o, p, false, sd, co, si⟩ d0).errorShown = true ∧
      (save_from_form (SaveTarget.folderMeta path msg)
        ⟨g, o, p, false, sd, co, si⟩ d0).dirty = d0 ∧
      (save_from_form (SaveTarget.folderMeta path msg)
        ⟨g, o, p, false, sd, co, si⟩ d0).wrote = false ∧
      (save_from_form (SaveTarget.folderMeta path msg)
        ⟨g, o, p, false, sd, co, si⟩ d0).savedInfoShown = false ∧
      (∀ m2 q, GitCmd.commit m2 q ∉ (save_from_form (SaveTarget.folderMeta path msg)
        ⟨g, o, p, false, sd, co, si⟩ d0).cmds)) := by
  cases g <;> cases o <;> cases p <;>
    simp [save_from_form, safe_pull_before_save]

/-- Witness for C7 at a concrete failed write. -/
theorem claim_C7_witness :
    ((save_from_form (SaveTarget.docRaw ("f.md") ("m"))
        ⟨true, true, true, false, false, true, false⟩ true).errorShown = true ∧
      (save_from_form (SaveTarget.docRaw ("f.md") ("m"))
        ⟨true, true, true, false, false, true, false⟩ true).dirty = true ∧
      (save_from_form (SaveTarget.docRaw ("f.md") ("m"))
        ⟨true, true, true, false, false, true, false⟩ true).wrote = false ∧
      (∀ m2 q, GitCmd.commit m2 q ∉ (save_from_form (SaveTarget.docRaw ("f.md") ("m"))
        ⟨true, true, true, false, false, true, false⟩ true).cmds)) ∧
    ((save_from_form (SaveTarget.docStructured ("f.md") ("m"))
        ⟨true, true, true, false, false, true, false⟩ true).errorShown = true ∧
      (save_from_form (SaveTarget.docStructured ("f.md") ("m"))
        ⟨true, true, true, false, false, true, false⟩ true).dirty = true ∧
      (save_from_form (SaveTarget.docStructured ("f.md") ("m"))
        ⟨true, true, true, false, false, true, false⟩ true).wrote = false ∧
      (∀ m2 q, GitCmd.commit m2 q ∉ (save_from_form (SaveTarget.docStructured ("f.md") ("m"))
        ⟨true, true, true, false, false, true, false⟩ true).cmds)) ∧
    ((save_from_form (SaveTarget.folderMeta ("f.md") ("m"))
        ⟨true, true, true, false, false, true, false⟩ true).errorShown = true ∧
      (save_from_form (SaveTarget.folderMeta ("f.md") ("m"))
        ⟨true, true, true, false, false, true, false⟩ true).dirty = true ∧
      (save_from_form (SaveTarget.folderMeta ("f.md") ("m"))
        ⟨true, true, true, false, false, true, false⟩ true).wrote = false ∧
      (save_from_form (SaveTarget.folderMeta ("f.md") ("m"))
        ⟨true, true, true, false, false, true, false⟩ true).savedInfoShown = false ∧
      (∀ m2 q, GitCmd.commit m2 q ∉ (save_from_form (SaveTarget.folderMeta ("f.md") ("m"))
        ⟨true, true, true, false, false, true, false⟩ true).cmds)) :=
  claim_C7_write_failure true true true false true false true ("f.md") ("m")

set_option maxHeartbeats 1600000 in
/-- Claim C8 (corrected), counterexample to the claim as stated: the row
`"|field | value |"` has first cell `field` and contains `value`, yet the
parser does not locate the Introduction table there (the test is the
literal prefix `"| field"` on the stripped lowered line, so it is not
independent of spacing) and the whole table is dropped. -/
theorem claim_C8_counterexample :
    (parseCells ("|field | value |")).head? = some ("field") ∧
    isInfixL (("value").data) (lowerL ("|field | value |" : String).data) = true ∧
    (parse_markdown ("|field | value |\n| ------ | ----- |\n| Title | Hello |")).fields
      = initFields := by
  exact ⟨by decide, by decide, by decide⟩

set_option maxHeartbeats 1600000 in
/-- Claim C8 (corrected): the Introduction header test is case-insensitive
(`"| FiElD | VaLuE |"` is matched, its divider is skipped, unrecognized
rows such as `Bogus` are silently dropped and recognized rows set their
field) but it is the literal prefix `"| field"` plus the substring
`"| value"`, not a spacing-independent first-cell test: the same table
with header `"|field | value |"` is not found at all. -/
theorem claim_C8_intro_header :
    (parse_markdown
        ("# T\n\n| FiElD | VaLuE |\n| --- | --- |\n| Bogus | X |\n| Title | Hello |")).fields
      = [("Title", ("Hello")), ("Part Number", ""), ("Notes", ""), ("Type of Design", ""),
         ("Level of Novelty", ""), ("Performance Feedback", ""),
         ("Verified Performance", "")] ∧
    (parse_markdown ("# T\n\n|field | value |\n| --- | --- |\n| Title | Hello |")).fields
      = initFields := by
  exact ⟨by decide, by decide⟩

set_option maxHeartbeats 1600000 in
/-- Claim C9 (confirmed, modelled from the spec): reading folder metadata
always yields a record in which every known key is populated; the
created-lazily flag is set exactly when the file was absent; and every
value present on disk is kept. -/
theorem claim_C9_folder_meta_defaults (today : String)
    (disk : Option (List (String × JVal))) :
    (∀ k ∈ folderMetaKeys, (lookupMeta (read_folder_meta today disk).1 k).isSome) ∧
    ((read_folder_meta today disk).2 = disk.isNone) ∧
    (∀ d k v, disk = some d → lookupMeta d k = some v →
      lookupMeta (read_folder_meta today disk).1 k = some v) := by
  refine ⟨?_, ?_, ?_⟩
  · intro k hk
    cases disk with
    | none =>
      show (lookupMeta (folderMetaDefaults today) k).isSome
      simp only [folderMetaKeys, List.mem_cons, List.not_mem_nil, or_false] at hk
      rcases hk with rfl | rfl | rfl | rfl | rfl | rfl | rfl <;> rfl
    | some d =>
      show (lookupMeta (backfillMeta d (folderMetaDefaults today)) k).isSome
      apply backfill_mem_some
      have hmap : (folderMetaDefaults today).map Prod.fst = folderMetaKeys := rfl
      rw [hmap]
      exact hk
  · cases disk <;> rfl
  · intro d k v hd hv
    cases disk with
    | none => exact absurd hd (by simp)
    | some d2 =>
      injection hd with e
      subst e
      show lookupMeta (backfillMeta d2 (folderMetaDefaults today)) k = some v
      exact backfill_keeps_some d2 (folderMetaDefaults today) k v hv

/-- Witness for C9: a record with only `Owner` on disk keeps that value,
gets `Tags` defaulted, and an absent file sets the created flag. -/
theorem claim_C9_witness :
    lookupMeta (read_folder_meta ("2026-02-03")
        (some [("Owner", JVal.s ("me"))])).1 ("Owner") = some (JVal.s ("me")) ∧
    (lookupMeta (read_folder_meta ("2026-02-03")
        (some [("Owner", JVal.s ("me"))])).1 ("Tags")).isSome ∧
    (read_folder_meta ("2026-02-03") (none : Option (List (String × JVal)))).2 = true :=
  ⟨(claim_C9_folder_meta_defaults ("2026-02-03") (some [("Owner", JVal.s ("me"))])).2.2
      [("Owner", JVal.s ("me"))] ("Owner") (JVal.s ("me")) rfl (by decide),
   (claim_C9_folder_meta_defaults ("2026-02-03") (some [("Owner", JVal.s ("me"))])).1
      ("Tags") (by decide),
   (claim_C9_folder_meta_defaults ("2026-02-03")
      (none : Option (List (String × JVal)))).2.1⟩

/-- Claim C10 (confirmed): every item surviving `_parse_bulleted_list` has
lowercase form different from `"(none)"` — so any case variant such as
`"- (NoNe)"` is removed — while `build_variant_list` emits the literal
placeholder `"- (none)"` exactly for the empty list and renders a
non-empty well-formed list as its bullets unchanged. -/
theorem claim_C10_none_placeholder (tail : List String) (it : String)
    (items : List String) (hmem : it ∈ parse_bulleted_list tail)
    (hitems : ∀ x ∈ items, itemOk x) (hne : items ≠ []) :
    lowerL it.data ≠ ("(none)").data ∧
    parse_bulleted_list [("- (NoNe)" : String)] = [] ∧
    build_variant_list [] = ("- (none)") ∧
    (build_variant_list items).data
      = joinSepL ['\n'] ((items.map bulletLine).map String.data) := by
  refine ⟨?_, by decide, by decide, ?_⟩
  · unfold parse_bulleted_list at hmem
    rw [List.mem_filter] at hmem
    simpa using hmem.2
  · rw [build_variant_list_of_itemOk items hitems]
    unfold variantSegment
    rw [if_neg hne]

/-- Witness for C10: the item `V1` survives parsing next to a case-variant
placeholder bullet, which does not. -/
theorem claim_C10_witness :
    ("V1" : String) ∈ parse_bulleted_list [("- V1" : String), ("- (NoNe)" : String)] ∧
    itemOk ("V1") ∧
    (lowerL ("V1" : String).data ≠ ("(none)").data ∧
      parse_bulleted_list [("- (NoNe)" : String)] = [] ∧
      build_variant_list [] = ("- (none)") ∧
      (build_variant_list [("V1" : String)]).data
        = joinSepL ['\n'] (([("V1" : String)].map bulletLine).map String.data)) :=
  ⟨by decide, ⟨by unfold tameS; decide, by decide, by decide, by decide, by decide⟩,
   claim_C10_none_placeholder [("- V1" : String), ("- (NoNe)" : String)] ("V1")
     [("V1" : String)] (by decide)
     (fun x hx => by
       rcases List.mem_cons.mp hx with rfl | hx
       · exact ⟨by unfold tameS; decide, by decide, by decide, by decide, by decide⟩
       · exact absurd hx (List.not_mem_nil x))
     (by decide)⟩

end PartsCatalog
